import Mathlib

/-!
# Verification of the Documenso document-sealing pipeline

A shallow embedding of the sealing pipeline of this repository:

* `breakLongString` and its helpers embed the text-wrapping function
  defined in `packages/lib/server-only/document/seal-document.ts`
  (an identical copy appears in the unnamed job-handler variant).
* `renderFieldSeal` and `renderFieldHandler` embed the two non-signature
  field-rendering loops (`seal-document.ts` and
  `jobs/definitions/internal/seal-document.handler.ts` respectively).
* `sealDocument` and `runHandler` embed the two sealing entry points as
  state-passing functions over an explicit database/side-effect state
  `DbState`, with external collaborators (blob storage, PDF loading,
  cryptographic signer, job-runner checkpoint cache) given as oracles.

Texts are modelled as `List Char` (a TS string is a sequence of
characters) and PDF coordinates / font metrics as `Rat` (the source uses
JS numbers for exact small decimal arithmetic such as `fontSize * 1.2`).
-/

namespace Documenso

/-- Signing status of a recipient (Prisma enum `SigningStatus`). -/
inductive SigningStatus where
  | PENDING
  | SIGNED
  | REJECTED
  deriving DecidableEq, Repr

/-- Role of a recipient (Prisma enum `RecipientRole`, abridged to the
constructors the sealing pipeline distinguishes). -/
inductive RecipientRole where
  | SIGNER
  | APPROVER
  | CC
  | VIEWER
  deriving DecidableEq, Repr

/-- Document lifecycle status (Prisma enum `DocumentStatus`). -/
inductive DocumentStatus where
  | DRAFT
  | PENDING
  | COMPLETED
  | REJECTED
  deriving DecidableEq, Repr

/-- Field type (Prisma enum `FieldType`, abridged: the sealing pipeline
only distinguishes the two signature-bearing types from the rest). -/
inductive FieldType where
  | SIGNATURE
  | FREE_SIGNATURE
  | TEXT
  | DATE
  | CHECKBOX
  deriving DecidableEq, Repr

/-- A recipient row as loaded by the sealing pipeline. -/
structure Recipient where
  signingStatus : SigningStatus
  role : RecipientRole
  rejectionReason : Option String
  deriving DecidableEq, Repr

/-- A `DocumentData` row: `data` is the current rendered bytes reference,
`initialData` the pristine pre-field-insertion reference. -/
structure DocumentData where
  id : Int
  data : String
  initialData : String
  deriving DecidableEq, Repr

/-- A field row as loaded by the sealing pipeline.  Geometry is stored as
percentages of the page dimensions (`Number(field.width) / 100` etc. in
the source). -/
structure Field where
  type : FieldType
  page : Int
  positionX : Rat
  positionY : Rat
  width : Rat
  height : Rat
  inserted : Bool
  customText : List Char
  required : Bool
  deriving DecidableEq, Repr

/-- A document row, together with the relations both sealing entry points
`include` when loading it (`recipients`, `documentData`, the team
certificate preference). -/
structure Document where
  id : Int
  title : String
  status : DocumentStatus
  recipients : List Recipient
  documentData : Option DocumentData
  documentDataId : Int
  useLegacyFieldInsertion : Bool
  qrToken : Option String
  teamIncludeSigningCertificate : Option Bool
  deriving DecidableEq, Repr

/-! ## Character-list utilities

`splitOnChar` embeds JS `String.prototype.split` with a single-character
separator, and `intercalateChar` embeds `Array.prototype.join` with a
single-character separator (`'\n'` in the source). -/

/-- JS `text.split(sep)` for a one-character separator: always returns at
least one (possibly empty) piece, and empty pieces are kept. -/
def splitOnChar (sep : Char) : List Char → List (List Char)
  | [] => [[]]
  | c :: cs =>
    match splitOnChar sep cs with
    | [] => [[]]
    | p :: ps => if c = sep then [] :: p :: ps else (c :: p) :: ps

/-- JS `lines.join(sep)` for a one-character separator. -/
def intercalateChar (sep : Char) : List (List Char) → List Char
  | [] => []
  | [l] => l
  | l :: l2 :: ls => l ++ sep :: intercalateChar sep (l2 :: ls)

/-! ## Text Layout Engine (`breakLongString`)

Direct embedding of `breakLongString` from `seal-document.ts` lines
217-285.  The imperative loops become recursions whose accumulator is the
mutable variable of the loop; each function returns the lines it pushed
together with the final value of the accumulator. -/

/-- The character-by-character breaking loop (`for (const char of word)`),
entered when a single word is wider than `maxWidth`.  Returns the lines
pushed by the loop and the final `charLine`. -/
def breakChars (width : List Char → Rat) (maxWidth : Rat)
    (charLine : List Char) : List Char → List (List Char) × List Char
  | [] => ([], charLine)
  | c :: cs =>
    let nextCharLine := charLine ++ [c]
    if width nextCharLine ≤ maxWidth then
      breakChars width maxWidth nextCharLine cs
    else
      let r := breakChars width maxWidth [c] cs
      (charLine :: r.1, r.2)

/-- The word loop (`for (const word of words)`).  Returns the lines pushed
by the loop and the final `currentLine`. -/
def wrapWords (width : List Char → Rat) (maxWidth : Rat)
    (currentLine : List Char) : List (List Char) → List (List Char) × List Char
  | [] => ([], currentLine)
  | w :: ws =>
    let lineWithWord := if currentLine.isEmpty then w else currentLine ++ ' ' :: w
    if width lineWithWord ≤ maxWidth then
      wrapWords width maxWidth lineWithWord ws
    else
      let pushed := if currentLine.isEmpty then [] else [currentLine]
      if width w ≤ maxWidth then
        let r := wrapWords width maxWidth w ws
        (pushed ++ r.1, r.2)
      else
        let cb := breakChars width maxWidth [] w
        let r := wrapWords width maxWidth cb.2 ws
        (pushed ++ cb.1 ++ r.1, r.2)

/-- Wrapping of one paragraph (one piece of `text.split('\n')`): kept
as-is when empty or already narrow enough, otherwise word-wrapped, with
the final `currentLine` pushed when non-empty. -/
def wrapParagraph (width : List Char → Rat) (maxWidth : Rat)
    (p : List Char) : List (List Char) :=
  if p.isEmpty || decide (width p ≤ maxWidth) then [p]
  else
    let r := wrapWords width maxWidth [] (splitOnChar ' ' p)
    r.1 ++ (if r.2.isEmpty then [] else [r.2])

/-- The outer paragraph loop (`for (const paragraph of text.split('\n'))`),
accumulating all pushed lines in order. -/
def wrapParagraphs (width : List Char → Rat) (maxWidth : Rat) :
    List (List Char) → List (List Char)
  | [] => []
  | p :: ps => wrapParagraph width maxWidth p ++ wrapParagraphs width maxWidth ps

/-- The `lines` array built by `breakLongString` before it is joined with
newlines (`lines.join('\n')`). -/
def breakLongStringLines (text : List Char) (maxWidth : Rat)
    (font : List Char → Rat → Rat) (fontSize : Rat) : List (List Char) :=
  wrapParagraphs (fun s => font s fontSize) maxWidth (splitOnChar '\n' text)

/-- `breakLongString(text, maxWidth, font, fontSize)`: the returned string.
The `font` oracle embeds `font.widthOfTextAtSize` and is always applied at
`fontSize`, as in the source.  The source returns the empty string for
empty input. -/
def breakLongString (text : List Char) (maxWidth : Rat)
    (font : List Char → Rat → Rat) (fontSize : Rat) : List Char :=
  if text.isEmpty then []
  else intercalateChar '\n' (breakLongStringLines text maxWidth font fontSize)

/-- The lines the caller recovers from the wrapped text
(`wrappedText.split('\n')` in the rendering loop). -/
def linesOfWrap (text : List Char) (maxWidth : Rat)
    (font : List Char → Rat → Rat) (fontSize : Rat) : List (List Char) :=
  splitOnChar '\n' (breakLongString text maxWidth font fontSize)

/-- Sanity check: greedy word wrapping under a 5-units-per-glyph metric. -/
theorem breakLongString_sanity :
    breakLongString "hello world".data 30 (fun s _ => (s.length : Rat) * 5) 8
      = "hello\nworld".data := by
  with_unfolding_all decide

/-- Sanity check: character breaking of an over-wide word. -/
theorem linesOfWrap_sanity :
    linesOfWrap "abcde".data 10 (fun s _ => (s.length : Rat) * 5) 8
      = [['a', 'b'], ['c', 'd'], ['e']] := by
  with_unfolding_all decide

/-! ## Field Renderer

Embedding of the two non-signature field-rendering loops.  A rendered PDF
is abstracted to its list of pages (only the page dimensions are read),
and the drawing effect of `page.drawText` is recorded as a `DrawOp`. -/

/-- A PDF page, reduced to the dimensions the renderer reads. -/
structure Page where
  width : Rat
  height : Rat
  deriving DecidableEq, Repr

/-- One `page.drawText(line, { x, y, size, font })` call. -/
structure DrawOp where
  text : List Char
  x : Rat
  y : Rat
  size : Rat
  deriving DecidableEq, Repr

/-- JS `Array.prototype.at`: negative indices count from the end, and any
index outside the array yields `undefined` (`none`). -/
def jsAt (l : List α) (i : Int) : Option α :=
  let n : Int := l.length
  let j := if i < 0 then n + i else i
  if 0 ≤ j ∧ j < n then l.get? j.toNat else none

/-- The line-drawing loop of `seal-document.ts` (lines 195-209): draw each
line at the cursor, stepping the cursor down by `lineHeight`, and break
out (drawing nothing further) once the cursor falls below
`invertedY + padding`. -/
def drawLines (fieldX padding invertedY fontSize lineHeight : Rat) :
    List (List Char) → Rat → List DrawOp
  | [], _ => []
  | line :: rest, currentY =>
    if currentY < invertedY + padding then []
    else
      { text := line, x := fieldX + padding, y := currentY, size := fontSize } ::
        drawLines fieldX padding invertedY fontSize lineHeight rest (currentY - lineHeight)

/-- The per-field body of the non-signature rendering loop of
`seal-document.ts` (lines 157-211).  Note this variant does not consult
`field.inserted`.  `font` embeds the Helvetica `widthOfTextAtSize`
metric. -/
def renderFieldSeal (pages : List Page) (font : List Char → Rat → Rat)
    (field : Field) : List DrawOp :=
  match jsAt pages (field.page - 1) with
  | none => []
  | some page =>
    let pageWidth := page.width
    let pageHeight := page.height
    let fieldWidth := pageWidth * (field.width / 100)
    let fieldHeight := pageHeight * (field.height / 100)
    let fieldX := pageWidth * (field.positionX / 100)
    let fieldY := pageHeight * (field.positionY / 100)
    let invertedY := pageHeight - fieldY - fieldHeight
    let fontSize : Rat := 8
    let padding : Rat := 4
    if field.customText.isEmpty then []
    else
      let availableWidth := fieldWidth - padding * 2
      let wrappedText := breakLongString field.customText availableWidth font fontSize
      let lines := splitOnChar '\n' wrappedText
      let lineHeight := fontSize * (12 / 10)
      drawLines fieldX padding invertedY fontSize lineHeight lines
        (invertedY + fieldHeight - padding - fontSize)

/-- The per-field body of the non-signature rendering loop of
`seal-document.handler.ts` (lines 186-222).  This variant skips
non-inserted fields, performs no wrapping, and draws the whole
`customText` once, vertically centered with a 2-unit x padding. -/
def renderFieldHandler (pages : List Page) (field : Field) : List DrawOp :=
  if !field.inserted then []
  else
    match jsAt pages (field.page - 1) with
    | none => []
    | some page =>
      let pageWidth := page.width
      let pageHeight := page.height
      let _fieldWidth := pageWidth * (field.width / 100)
      let fieldHeight := pageHeight * (field.height / 100)
      let fieldX := pageWidth * (field.positionX / 100)
      let fieldY := pageHeight * (field.positionY / 100)
      let invertedY := pageHeight - fieldY - fieldHeight
      let fontSize : Rat := 8
      if field.customText.isEmpty then []
      else
        [{ text := field.customText, x := fieldX + 2,
           y := invertedY + fieldHeight / 2 - fontSize / 2, size := fontSize }]

/-- `field.type === FieldType.SIGNATURE || field.type === FieldType.FREE_SIGNATURE`. -/
def isSignatureFieldType (t : FieldType) : Bool :=
  t = FieldType.SIGNATURE || t = FieldType.FREE_SIGNATURE

/-- The whole non-signature rendering loop of `seal-document.ts`: the draw
operations of each field in order.  (The loop re-reads `doc.getPages()`
each iteration, but drawing text never changes the page list, so the
pages are a loop invariant.) -/
def renderNonSignatureFieldsSeal (pages : List Page) (font : List Char → Rat → Rat)
    (fields : List Field) : List DrawOp :=
  (fields.filter fun f => !isSignatureFieldType f.type).flatMap (renderFieldSeal pages font)

/-- The whole non-signature rendering loop of `seal-document.handler.ts`. -/
def renderNonSignatureFieldsHandler (pages : List Page) (fields : List Field) : List DrawOp :=
  (fields.filter fun f => !isSignatureFieldType f.type).flatMap (renderFieldHandler pages)

/-! ## Sealing Orchestrator

Both sealing entry points are embedded as state-passing functions over an
explicit `DbState` that records the mutable database columns the pipeline
touches plus a log of every externally visible side effect.  External
collaborators (blob storage, PDF loading, the cryptographic signer, the
database transaction) are oracles in `SealEnv`; an oracle flag set to
`false` makes that collaborator fail, which lets the theorems quantify
over every failure point. -/

/-- Audit-log entry type (only `DOCUMENT_COMPLETED` is emitted here). -/
inductive AuditLogType where
  | DOCUMENT_COMPLETED
  deriving DecidableEq, Repr

/-- The audit-log row created inside the sealing transaction.  The
`isRejected`/`rejectionReason` pair models the conditional spread
`...(isRejected ? { isRejected: true, rejectionReason } : {})`. -/
structure AuditEntry where
  type : AuditLogType
  documentId : Int
  transactionId : String
  isRejected : Bool
  rejectionReason : Option String
  deriving DecidableEq, Repr

/-- Webhook trigger events dispatched after sealing. -/
inductive WebhookEvent where
  | DOCUMENT_COMPLETED
  | DOCUMENT_REJECTED
  deriving DecidableEq, Repr

/-- One `triggerWebhook` dispatch. -/
structure WebhookCall where
  event : WebhookEvent
  documentId : Int
  deriving DecidableEq, Repr

/-- The mutable state visible to the sealing pipeline: the document row
columns it updates, the `DocumentData` row `data` column, the audit log,
the content-addressed blob store (id, data reference), and append-only
logs of storage reads, rejection stamps, draw operations, completion
emails, webhook dispatches and analytics captures. -/
structure DbState where
  docStatus : DocumentStatus
  docCompletedAt : Option Nat
  docQrToken : Option String
  docDataRef : String
  auditLog : List AuditEntry
  blobs : List (String × String)
  loads : List String
  stamps : List String
  draws : List DrawOp
  emails : List Int
  webhooks : List WebhookCall
  analytics : List Int
  deriving DecidableEq, Repr

/-- The errors either sealing entry point can throw. `notComplete` covers
the completion-precondition failure of both variants (the TS messages are
"Document N has unsigned recipients" and "Document is not complete"). -/
inductive SealError where
  | documentNotFound
  | noDocumentData
  | notComplete
  | unsignedRequiredFields
  | loadFailed
  | signFailed
  | putFailed
  | txFailed
  | newDataNotFound
  deriving DecidableEq, Repr

/-- Decidable equality for `Except` results, so concrete runs of the two
sealing entry points can be checked by evaluation. -/
instance {ε α : Type} [DecidableEq ε] [DecidableEq α] : DecidableEq (Except ε α) := fun x y =>
  match x, y with
  | Except.ok a, Except.ok b =>
    if h : a = b then Decidable.isTrue (congrArg Except.ok h)
    else Decidable.isFalse (fun hh => h (Except.ok.inj hh))
  | Except.ok _, Except.error _ => Decidable.isFalse (fun hh => Except.noConfusion hh)
  | Except.error _, Except.ok _ => Decidable.isFalse (fun hh => Except.noConfusion hh)
  | Except.error e1, Except.error e2 =>
    if h : e1 = e2 then Decidable.isTrue (congrArg Except.error h)
    else Decidable.isFalse (fun hh => h (Except.error.inj hh))

/-- External collaborators of the pipeline, as oracles.  `loadPages`
combines `getFileServerSide` and `PDFDocument.load` (the pipeline only
reads the page list); `font` is the embedded Helvetica metric;
`freshBlobId`/`freshBlobRef` are the identifiers `putPdfFileServerSide`
assigns to the newly stored bytes; `txId` is the `nanoid()` transaction
id; `now` is `new Date()`; `findDocumentData` is the
`prisma.documentData.findFirst` lookup the job handler performs by id. -/
structure SealEnv where
  loadPages : String → Option (List Page)
  font : List Char → Rat → Rat
  signOk : Bool
  putOk : Bool
  txOk : Bool
  freshBlobId : String
  freshBlobRef : String
  txId : String
  now : Nat
  freshQrToken : String
  findDocumentData : Int → Option DocumentData

/-- The arguments of one seal invocation together with the data the
pipeline loads: `doc` is the result of the initial
`prisma.document.findFirstOrThrow` (with its included relations) and
`fields` the result of the field query. -/
structure SealInput where
  documentId : Int
  sendEmail : Bool := true
  isResealing : Bool := false
  doc : Option Document
  fields : List Field
  env : SealEnv

/-- The durable checkpoint cache of the job runner (`io.runTask`): a
re-run after a crash receives the recorded result of every sub-task that
already committed.  `none`/`false` means the sub-task has not run yet. -/
structure RunCache where
  status : Option DocumentStatus := none
  dataId : Option Int := none
  newDataId : Option String := none
  updateDone : Bool := false
  emailDone : Bool := false
  deriving DecidableEq, Repr

/-- The non-CC recipients of the document: both entry points query
`prisma.recipient.findMany({ where: { documentId, role: { not: CC } } })`,
which is the role-filtered recipient list. -/
def nonCCRecipients (doc : Document) : List Recipient :=
  doc.recipients.filter fun r => r.role ≠ RecipientRole.CC

/-- `recipients.find((recipient) => recipient.signingStatus === REJECTED)`
over the non-CC recipients. -/
def rejectedRecipientOf (doc : Document) : Option Recipient :=
  (nonCCRecipients doc).find? fun r => r.signingStatus = SigningStatus.REJECTED

/-- `isRejected = Boolean(rejectedRecipient)`. -/
def isRejectedOf (doc : Document) : Bool :=
  (rejectedRecipientOf doc).isSome

/-- The rejection reason of the rejected recipient, with the empty
string as the defined fallback (the TS nullish-coalescing default). -/
def rejectionReasonOf (doc : Document) : String :=
  ((rejectedRecipientOf doc).bind Recipient.rejectionReason).getD ""

/-- Modelled from the spec: `fieldsContainUnsignedRequiredField` lives in
`packages/lib/utils/advanced-fields-helpers.ts`, which is not among the
provided sources.  Spec section 4.1: "no required field may be present
that is both required and not inserted (checked via a pure predicate over
the field set)". -/
def fieldsContainUnsignedRequiredField (fields : List Field) : Bool :=
  fields.any fun f => f.required && !f.inserted

/-- Modelled from the spec: `isDocumentCompleted` lives in
`packages/lib/utils/document.ts`, which is not among the provided
sources.  Spec section 4.7: on a reseal the email is sent "only if the
document was not already completed before this reseal", so the predicate
holds exactly for status `COMPLETED`. -/
def isDocumentCompleted (status : DocumentStatus) : Bool :=
  status = DocumentStatus.COMPLETED

/-- The audit-log entry the sealing transaction creates for `doc`. -/
def sealAuditEntry (doc : Document) (txId : String) : AuditEntry :=
  { type := AuditLogType.DOCUMENT_COMPLETED
    documentId := doc.id
    transactionId := txId
    isRejected := isRejectedOf doc
    rejectionReason := if isRejectedOf doc then some (rejectionReasonOf doc) else none }

/-- The tail of `sealDocument` from the success of `signPdf` onwards:
`putPdfFileServerSide`, the PostHog capture, the `prisma.$transaction`
(document status + completion timestamp, `documentData.data`, one audit
log row), the conditional completion email, and the webhook dispatch. -/
def sealPersist (inp : SealInput) (doc : Document) (s : DbState) :
    DbState × Except SealError Unit :=
  let isRejected := isRejectedOf doc
  let s4 := { s with blobs := s.blobs ++ [(inp.env.freshBlobId, inp.env.freshBlobRef)] }
  let s5 := { s4 with analytics := s4.analytics ++ [doc.id] }
  if !inp.env.txOk then (s5, Except.error SealError.txFailed)
  else
    let s6 := { s5 with
      docStatus := if isRejected then DocumentStatus.REJECTED else DocumentStatus.COMPLETED
      docCompletedAt := some inp.env.now
      docDataRef := inp.env.freshBlobRef
      auditLog := s5.auditLog ++ [sealAuditEntry doc inp.env.txId] }
    let s7 := if inp.sendEmail && !inp.isResealing then
        { s6 with emails := s6.emails ++ [doc.id] }
      else s6
    let s8 := { s7 with webhooks := s7.webhooks ++ [{
      event := if isRejected then WebhookEvent.DOCUMENT_REJECTED
        else WebhookEvent.DOCUMENT_COMPLETED
      documentId := doc.id }] }
    (s8, Except.ok ())

/-- The effectful middle of `sealDocument`: read the working bytes,
normalize/flatten (no observable state), stamp a non-empty rejection
reason, draw all non-signature fields, then sign; on signing success
continue with `sealPersist`. -/
def sealEffects (inp : SealInput) (doc : Document) (documentData : DocumentData)
    (s0 : DbState) : DbState × Except SealError Unit :=
  let isRejected := isRejectedOf doc
  let rejectionReason := rejectionReasonOf doc
  let workingRef := if inp.isResealing then documentData.initialData else documentData.data
  let s1 := { s0 with loads := s0.loads ++ [workingRef] }
  match inp.env.loadPages workingRef with
  | none => (s1, Except.error SealError.loadFailed)
  | some pages =>
    let s2 := if isRejected && rejectionReason ≠ "" then
        { s1 with stamps := s1.stamps ++ [rejectionReason] }
      else s1
    let s3 := { s2 with
      draws := s2.draws ++ renderNonSignatureFieldsSeal pages inp.env.font inp.fields }
    if !inp.env.signOk then (s3, Except.error SealError.signFailed)
    else if !inp.env.putOk then (s3, Except.error SealError.putFailed)
    else sealPersist inp doc s3

/-- `sealDocument` from `packages/lib/server-only/document/seal-document.ts`,
as a state transition.  The returned state reflects every side effect
performed before the function returned or threw. -/
def sealDocument (inp : SealInput) (s0 : DbState) : DbState × Except SealError Unit :=
  match inp.doc with
  | none => (s0, Except.error SealError.documentNotFound)
  | some doc =>
    match doc.documentData with
    | none => (s0, Except.error SealError.noDocumentData)
    | some documentData =>
      if !isRejectedOf doc &&
          ((nonCCRecipients doc).any fun r => r.signingStatus ≠ SigningStatus.SIGNED) then
        (s0, Except.error SealError.notComplete)
      else if !isRejectedOf doc && fieldsContainUnsignedRequiredField inp.fields then
        (s0, Except.error SealError.unsignedRequiredFields)
      else sealEffects inp doc documentData s0

/-- The `decorate-and-sign-pdf` checkpointed sub-task of the job
handler: skipped (returning the recorded new `DocumentData` id) when the
checkpoint cache holds its result; otherwise loads the PDF, stamps a
non-empty rejection reason, draws inserted non-signature fields, signs,
and stores the new blob, returning its id. -/
def handlerDecorate (cache : RunCache) (inp : SealInput) (doc : Document)
    (workingRef : String) (s2 : DbState) : DbState × Except SealError String :=
  match cache.newDataId with
  | some id => (s2, Except.ok id)
  | none =>
    match inp.env.loadPages workingRef with
    | none => (s2, Except.error SealError.loadFailed)
    | some pages =>
      let isRejected := isRejectedOf doc
      let rejectionReason := rejectionReasonOf doc
      let s3 := if isRejected && rejectionReason ≠ "" then
          { s2 with stamps := s2.stamps ++ [rejectionReason] }
        else s2
      let s4 := { s3 with
        draws := s3.draws ++ renderNonSignatureFieldsHandler pages inp.fields }
      if !inp.env.signOk then (s4, Except.error SealError.signFailed)
      else if !inp.env.putOk then (s4, Except.error SealError.putFailed)
      else
        ({ s4 with blobs := s4.blobs ++ [(inp.env.freshBlobId, inp.env.freshBlobRef)] },
          Except.ok inp.env.freshBlobId)

/-- The `update-document` checkpointed sub-task of the job handler:
skipped when already recorded as done; otherwise one atomic transaction
that looks up the new `DocumentData` row (`findFirstOrThrow`), updates
the document status and completion timestamp, repoints the original
`DocumentData` row, and appends one audit-log entry. -/
def handlerUpdate (cache : RunCache) (inp : SealInput) (doc : Document)
    (newDataId : String) (s6 : DbState) : DbState × Except SealError Unit :=
  if cache.updateDone then (s6, Except.ok ())
  else if !inp.env.txOk then (s6, Except.error SealError.txFailed)
  else
    match s6.blobs.find? fun b => b.1 = newDataId with
    | none => (s6, Except.error SealError.newDataNotFound)
    | some newData =>
      ({ s6 with
        docStatus := if isRejectedOf doc then DocumentStatus.REJECTED
          else DocumentStatus.COMPLETED
        docCompletedAt := some inp.env.now
        docDataRef := newData.2
        auditLog := s6.auditLog ++ [sealAuditEntry doc inp.env.txId] },
        Except.ok ())

/-- The `send-completed-email` checkpointed sub-task followed by the
webhook dispatch: the email decision reads the document status loaded at
the start of the run (`document.status`), not the checkpointed value. -/
def handlerShouldSendEmail (inp : SealInput) (doc : Document) : Bool :=
  if inp.isResealing && !isDocumentCompleted doc.status then inp.sendEmail
  else inp.sendEmail && !inp.isResealing && !(isRejectedOf doc)

/-- The `send-completed-email` checkpointed sub-task followed by the
webhook dispatch (continued). -/
def handlerFinish (cache : RunCache) (inp : SealInput) (doc : Document)
    (s7 : DbState) : DbState × Except SealError Unit :=
  let shouldSendCompletedEmail := handlerShouldSendEmail inp doc
  let s8 := if cache.emailDone then s7
    else if shouldSendCompletedEmail then { s7 with emails := s7.emails ++ [doc.id] }
    else s7
  let s9 := { s8 with webhooks := s8.webhooks ++ [{
    event := if isRejectedOf doc then WebhookEvent.DOCUMENT_REJECTED
      else WebhookEvent.DOCUMENT_COMPLETED
    documentId := doc.id }] }
  (s9, Except.ok ())

/-- The tail of the job handler from the `decorate-and-sign-pdf` task
onwards: decorate, then the PostHog capture, then the `update-document`
task, then email and webhook. -/
def handlerTail (cache : RunCache) (inp : SealInput) (doc : Document)
    (workingRef : String) (t : DbState) : DbState × Except SealError Unit :=
  match handlerDecorate cache inp doc workingRef t with
  | (se, Except.error e) => (se, Except.error e)
  | (s5, Except.ok newDataId) =>
    match handlerUpdate cache inp doc newDataId
        { s5 with analytics := s5.analytics ++ [doc.id] } with
    | (se, Except.error e) => (se, Except.error e)
    | (s7, Except.ok _) => handlerFinish cache inp doc s7

/-- `run` from `packages/lib/jobs/definitions/internal/seal-document.handler.ts`,
as a state transition.  `cache` is the job-runner checkpoint state: the
recorded results of the named `io.runTask` sub-tasks from a previous
partial execution (all empty on a first run).  Note: the completion check
of this variant ranges over all of `document.recipients`, including CC
recipients; the `get-document-status` checkpoint value is bound but never
read again, exactly as in the source. -/
def runHandler (cache : RunCache) (inp : SealInput) (s0 : DbState) :
    DbState × Except SealError Unit :=
  match inp.doc with
  | none => (s0, Except.error SealError.documentNotFound)
  | some doc =>
    let isComplete :=
      (doc.recipients.any fun r => r.signingStatus = SigningStatus.REJECTED) ||
        (doc.recipients.all fun r => r.signingStatus = SigningStatus.SIGNED)
    if !isComplete then (s0, Except.error SealError.notComplete)
    else
      let _documentStatus := cache.status.getD doc.status
      let documentDataId := cache.dataId.getD doc.documentDataId
      match inp.env.findDocumentData documentDataId with
      | none => (s0, Except.error SealError.noDocumentData)
      | some documentData =>
        if !isRejectedOf doc && fieldsContainUnsignedRequiredField inp.fields then
          (s0, Except.error SealError.unsignedRequiredFields)
        else
          let workingRef :=
            if inp.isResealing then documentData.initialData else documentData.data
          let s1 := if doc.qrToken.isNone then
              { s0 with docQrToken := some inp.env.freshQrToken }
            else s0
          let s2 := { s1 with loads := s1.loads ++ [workingRef] }
          handlerTail cache inp doc workingRef s2

/-! ## Lemmas: line-width invariant of the Text Layout Engine -/

/-- The invariant satisfied by every line the wrapping algorithm pushes:
it fits within `maxWidth`, or it is a single character that alone exceeds
`maxWidth`, or it is empty. -/
def LineOk (width : List Char → Rat) (maxWidth : Rat) (l : List Char) : Prop :=
  width l ≤ maxWidth ∨ (l.length = 1 ∧ maxWidth < width l) ∨ l = []

theorem lineOk_single (width : List Char → Rat) (maxWidth : Rat) (c : Char) :
    LineOk width maxWidth [c] := by
  by_cases h : width [c] ≤ maxWidth
  · exact Or.inl h
  · exact Or.inr (Or.inl ⟨rfl, lt_of_not_le h⟩)

theorem breakChars_lineOk (width : List Char → Rat) (maxWidth : Rat) :
    ∀ (chars : List Char) (charLine : List Char),
      LineOk width maxWidth charLine →
      (∀ l ∈ (breakChars width maxWidth charLine chars).1, LineOk width maxWidth l) ∧
        LineOk width maxWidth (breakChars width maxWidth charLine chars).2
  | [], charLine, h => ⟨by simp [breakChars], by simpa [breakChars] using h⟩
  | c :: cs, charLine, h => by
    rw [breakChars]
    by_cases hw : width (charLine ++ [c]) ≤ maxWidth
    · rw [if_pos hw]
      exact breakChars_lineOk width maxWidth cs (charLine ++ [c]) (Or.inl hw)
    · rw [if_neg hw]
      have ih := breakChars_lineOk width maxWidth cs [c] (lineOk_single width maxWidth c)
      refine ⟨?_, ih.2⟩
      intro l hl
      rcases List.mem_cons.mp hl with rfl | hl
      · exact h
      · exact ih.1 l hl

theorem wrapWords_lineOk (width : List Char → Rat) (maxWidth : Rat) :
    ∀ (ws : List (List Char)) (currentLine : List Char),
      LineOk width maxWidth currentLine →
      (∀ l ∈ (wrapWords width maxWidth currentLine ws).1, LineOk width maxWidth l) ∧
        LineOk width maxWidth (wrapWords width maxWidth currentLine ws).2
  | [], currentLine, h => ⟨by simp [wrapWords], by simpa [wrapWords] using h⟩
  | w :: ws, currentLine, h => by
    rw [wrapWords]
    by_cases hw : width (if currentLine.isEmpty then w else currentLine ++ ' ' :: w) ≤ maxWidth
    · rw [if_pos hw]
      exact wrapWords_lineOk width maxWidth ws _ (Or.inl hw)
    · rw [if_neg hw]
      have hpushed : ∀ l ∈ (if currentLine.isEmpty then ([] : List (List Char))
          else [currentLine]), LineOk width maxWidth l := by
        intro l hl
        by_cases hcl : currentLine.isEmpty
        · rw [if_pos hcl] at hl
          exact absurd hl (List.not_mem_nil l)
        · rw [if_neg hcl] at hl
          rcases List.mem_singleton.mp hl with rfl
          exact h
      by_cases hww : width w ≤ maxWidth
      · rw [if_pos hww]
        have ih := wrapWords_lineOk width maxWidth ws w (Or.inl hww)
        refine ⟨?_, ih.2⟩
        intro l hl
        rcases List.mem_append.mp hl with hl | hl
        · exact hpushed l hl
        · exact ih.1 l hl
      · rw [if_neg hww]
        have hcb := breakChars_lineOk width maxWidth w [] (Or.inr (Or.inr rfl))
        have ih := wrapWords_lineOk width maxWidth ws
          (breakChars width maxWidth [] w).2 hcb.2
        refine ⟨?_, ih.2⟩
        intro l hl
        rcases List.mem_append.mp hl with hl | hl
        · rcases List.mem_append.mp hl with hl2 | hl2
          · exact hpushed l hl2
          · exact hcb.1 l hl2
        · exact ih.1 l hl

theorem wrapParagraph_lineOk (width : List Char → Rat) (maxWidth : Rat)
    (p : List Char) : ∀ l ∈ wrapParagraph width maxWidth p, LineOk width maxWidth l := by
  intro l hl
  rw [wrapParagraph] at hl
  by_cases hp : (p.isEmpty || decide (width p ≤ maxWidth)) = true
  · rw [if_pos hp] at hl
    have : l = p := by simpa using hl
    subst this
    rcases Bool.or_eq_true_iff.mp hp with hp | hp
    · exact Or.inr (Or.inr (List.isEmpty_iff.mp hp))
    · exact Or.inl (of_decide_eq_true hp)
  · rw [if_neg hp] at hl
    have hww := wrapWords_lineOk width maxWidth (splitOnChar ' ' p) []
      (Or.inr (Or.inr rfl))
    rcases List.mem_append.mp hl with hl | hl
    · exact hww.1 l hl
    · by_cases hfin : (wrapWords width maxWidth [] (splitOnChar ' ' p)).2.isEmpty <;>
        simp [hfin] at hl
      exact hl ▸ hww.2

theorem wrapParagraphs_lineOk (width : List Char → Rat) (maxWidth : Rat) :
    ∀ (ps : List (List Char)), ∀ l ∈ wrapParagraphs width maxWidth ps,
      LineOk width maxWidth l
  | [], l, hl => by simp [wrapParagraphs] at hl
  | p :: ps, l, hl => by
    rw [wrapParagraphs] at hl
    rcases List.mem_append.mp hl with hl | hl
    · exact wrapParagraph_lineOk width maxWidth p l hl
    · exact wrapParagraphs_lineOk width maxWidth ps l hl

/-! ## Lemmas: the joined wrapped string splits back into the pushed lines

The renderer recovers lines with `wrappedText.split('\n')`; these lemmas
show that round trip recovers exactly the `lines` array of
`breakLongString` (no pushed line can contain a newline). -/

theorem splitOnChar_ne_nil (sep : Char) (l : List Char) : splitOnChar sep l ≠ [] := by
  cases l with
  | nil => simp [splitOnChar]
  | cons c cs =>
    rw [splitOnChar]
    rcases h : splitOnChar sep cs with _ | ⟨p, ps⟩
    · simp
    · by_cases hc : c = sep <;> simp [hc]

theorem splitOnChar_not_mem (sep : Char) :
    ∀ (l : List Char), ∀ p ∈ splitOnChar sep l, sep ∉ p
  | [], p, hp => by
    simp [splitOnChar] at hp
    simp [hp]
  | c :: cs, p, hp => by
    rw [splitOnChar] at hp
    rcases h : splitOnChar sep cs with _ | ⟨q, qs⟩
    · exact absurd h (splitOnChar_ne_nil sep cs)
    · rw [h] at hp
      have hp2 : p ∈ (if c = sep then [] :: q :: qs else (c :: q) :: qs) := hp
      have ih := splitOnChar_not_mem sep cs
      rw [h] at ih
      by_cases hc : c = sep
      · rw [if_pos hc] at hp2
        rcases List.mem_cons.mp hp2 with rfl | hp2
        · exact List.not_mem_nil sep
        · exact ih p hp2
      · rw [if_neg hc] at hp2
        rcases List.mem_cons.mp hp2 with rfl | hp2
        · intro hmem
          rcases List.mem_cons.mp hmem with h1 | h1
          · exact hc h1.symm
          · exact ih q (List.mem_cons_self q qs) h1
        · exact ih p (List.mem_cons_of_mem q hp2)

theorem splitOnChar_subset (sep : Char) :
    ∀ (l : List Char), ∀ p ∈ splitOnChar sep l, ∀ c ∈ p, c ∈ l
  | [], p, hp, c, hc => by
    simp [splitOnChar] at hp
    subst hp
    exact absurd hc (List.not_mem_nil c)
  | a :: as, p, hp, c, hc => by
    rw [splitOnChar] at hp
    rcases h : splitOnChar sep as with _ | ⟨q, qs⟩
    · exact absurd h (splitOnChar_ne_nil sep as)
    · rw [h] at hp
      have hp2 : p ∈ (if a = sep then [] :: q :: qs else (a :: q) :: qs) := hp
      have ih := splitOnChar_subset sep as
      rw [h] at ih
      by_cases ha : a = sep
      · rw [if_pos ha] at hp2
        rcases List.mem_cons.mp hp2 with rfl | hp2
        · exact absurd hc (List.not_mem_nil c)
        · exact List.mem_cons_of_mem a (ih p hp2 c hc)
      · rw [if_neg ha] at hp2
        rcases List.mem_cons.mp hp2 with rfl | hp2
        · rcases List.mem_cons.mp hc with rfl | hc
          · exact List.mem_cons_self c as
          · exact List.mem_cons_of_mem a (ih q (List.mem_cons_self q qs) c hc)
        · exact List.mem_cons_of_mem a (ih p (List.mem_cons_of_mem q hp2) c hc)

theorem splitOnChar_of_not_mem (sep : Char) :
    ∀ (l : List Char), sep ∉ l → splitOnChar sep l = [l]
  | [], _ => by simp [splitOnChar]
  | c :: cs, h => by
    have hc : c ≠ sep := fun hc => h (hc ▸ List.mem_cons_self c cs)
    have hcs : sep ∉ cs := fun hmem => h (List.mem_cons_of_mem c hmem)
    rw [splitOnChar, splitOnChar_of_not_mem sep cs hcs]
    show (if c = sep then [[], cs] else [c :: cs]) = [c :: cs]
    rw [if_neg hc]

theorem splitOnChar_append_sep (sep : Char) :
    ∀ (l rest : List Char), sep ∉ l →
      splitOnChar sep (l ++ sep :: rest) = l :: splitOnChar sep rest
  | [], rest, _ => by
    rw [List.nil_append, splitOnChar]
    rcases h : splitOnChar sep rest with _ | ⟨p, ps⟩
    · exact absurd h (splitOnChar_ne_nil sep rest)
    · show (if sep = sep then [] :: p :: ps else (sep :: p) :: ps) = [] :: p :: ps
      rw [if_pos rfl]
  | c :: cs, rest, h => by
    have hc : c ≠ sep := fun hc => h (hc ▸ List.mem_cons_self c cs)
    have hcs : sep ∉ cs := fun hmem => h (List.mem_cons_of_mem c hmem)
    rw [List.cons_append, splitOnChar, splitOnChar_append_sep sep cs rest hcs]
    show (if c = sep then [] :: cs :: splitOnChar sep rest
      else (c :: cs) :: splitOnChar sep rest) = (c :: cs) :: splitOnChar sep rest
    rw [if_neg hc]

theorem splitOnChar_intercalateChar (sep : Char) :
    ∀ (ls : List (List Char)), ls ≠ [] → (∀ l ∈ ls, sep ∉ l) →
      splitOnChar sep (intercalateChar sep ls) = ls
  | [], hne, _ => absurd rfl hne
  | [l], _, hsep => by
    rw [intercalateChar, splitOnChar_of_not_mem sep l (hsep l (List.mem_singleton.mpr rfl))]
  | l :: l2 :: ls, _, hsep => by
    rw [intercalateChar,
      splitOnChar_append_sep sep l _ (hsep l (List.mem_cons_self l (l2 :: ls))),
      splitOnChar_intercalateChar sep (l2 :: ls) (List.cons_ne_nil l2 ls)
        (fun x hx => hsep x (List.mem_cons_of_mem l hx))]

theorem breakChars_not_mem (width : List Char → Rat) (maxWidth : Rat) (a : Char) :
    ∀ (chars : List Char) (charLine : List Char), a ∉ charLine → a ∉ chars →
      (∀ l ∈ (breakChars width maxWidth charLine chars).1, a ∉ l) ∧
        a ∉ (breakChars width maxWidth charLine chars).2
  | [], charLine, hcl, _ => ⟨by simp [breakChars], by simpa [breakChars] using hcl⟩
  | c :: cs, charLine, hcl, hcs => by
    have hac : a ≠ c := fun h => hcs (h ▸ List.mem_cons_self c cs)
    have hacs : a ∉ cs := fun h => hcs (List.mem_cons_of_mem c h)
    have hnext : a ∉ charLine ++ [c] := by
      intro h
      rcases List.mem_append.mp h with h | h
      · exact hcl h
      · exact hac (List.mem_singleton.mp h)
    have hsingle : a ∉ [c] := fun h => hac (List.mem_singleton.mp h)
    rw [breakChars]
    by_cases hw : width (charLine ++ [c]) ≤ maxWidth
    · rw [if_pos hw]
      exact breakChars_not_mem width maxWidth a cs (charLine ++ [c]) hnext hacs
    · rw [if_neg hw]
      have ih := breakChars_not_mem width maxWidth a cs [c] hsingle hacs
      refine ⟨?_, ih.2⟩
      intro l hl
      rcases List.mem_cons.mp hl with rfl | hl
      · exact hcl
      · exact ih.1 l hl

theorem wrapWords_not_mem (width : List Char → Rat) (maxWidth : Rat) (a : Char)
    (ha : a ≠ ' ') :
    ∀ (ws : List (List Char)) (currentLine : List Char), a ∉ currentLine →
      (∀ w ∈ ws, a ∉ w) →
      (∀ l ∈ (wrapWords width maxWidth currentLine ws).1, a ∉ l) ∧
        a ∉ (wrapWords width maxWidth currentLine ws).2
  | [], currentLine, hcl, _ => ⟨by simp [wrapWords], by simpa [wrapWords] using hcl⟩
  | w :: ws, currentLine, hcl, hws => by
    have haw : a ∉ w := hws w (List.mem_cons_self w ws)
    have haws : ∀ x ∈ ws, a ∉ x := fun x hx => hws x (List.mem_cons_of_mem w hx)
    have hlww : a ∉ (if currentLine.isEmpty then w else currentLine ++ ' ' :: w) := by
      by_cases hcle : currentLine.isEmpty
      · rw [if_pos hcle]; exact haw
      · rw [if_neg hcle]
        intro h
        rcases List.mem_append.mp h with h | h
        · exact hcl h
        · rcases List.mem_cons.mp h with h | h
          · exact ha h
          · exact haw h
    have hpushed : ∀ l ∈ (if currentLine.isEmpty then ([] : List (List Char))
        else [currentLine]), a ∉ l := by
      intro l hl
      by_cases hcle : currentLine.isEmpty
      · rw [if_pos hcle] at hl
        exact absurd hl (List.not_mem_nil l)
      · rw [if_neg hcle] at hl
        rcases List.mem_singleton.mp hl with rfl
        exact hcl
    rw [wrapWords]
    by_cases hw : width (if currentLine.isEmpty then w else currentLine ++ ' ' :: w) ≤ maxWidth
    · rw [if_pos hw]
      exact wrapWords_not_mem width maxWidth a ha ws _ hlww haws
    · rw [if_neg hw]
      by_cases hww : width w ≤ maxWidth
      · rw [if_pos hww]
        have ih := wrapWords_not_mem width maxWidth a ha ws w haw haws
        refine ⟨?_, ih.2⟩
        intro l hl
        rcases List.mem_append.mp hl with hl | hl
        · exact hpushed l hl
        · exact ih.1 l hl
      · rw [if_neg hww]
        have hcb := breakChars_not_mem width maxWidth a w [] (List.not_mem_nil a) haw
        have ih := wrapWords_not_mem width maxWidth a ha ws
          (breakChars width maxWidth [] w).2 hcb.2 haws
        refine ⟨?_, ih.2⟩
        intro l hl
        rcases List.mem_append.mp hl with hl | hl
        · rcases List.mem_append.mp hl with hl2 | hl2
          · exact hpushed l hl2
          · exact hcb.1 l hl2
        · exact ih.1 l hl

theorem wrapParagraph_not_mem (width : List Char → Rat) (maxWidth : Rat) (a : Char)
    (ha : a ≠ ' ') (p : List Char) (hp : a ∉ p) :
    ∀ l ∈ wrapParagraph width maxWidth p, a ∉ l := by
  intro l hl
  rw [wrapParagraph] at hl
  by_cases hfits : (p.isEmpty || decide (width p ≤ maxWidth)) = true
  · rw [if_pos hfits] at hl
    rcases List.mem_singleton.mp hl with rfl
    exact hp
  · rw [if_neg hfits] at hl
    have hwords : ∀ w ∈ splitOnChar ' ' p, a ∉ w := fun w hw hmem =>
      hp (splitOnChar_subset ' ' p w hw a hmem)
    have hww := wrapWords_not_mem width maxWidth a ha (splitOnChar ' ' p) []
      (List.not_mem_nil a) hwords
    rcases List.mem_append.mp hl with hl | hl
    · exact hww.1 l hl
    · by_cases hfin : (wrapWords width maxWidth [] (splitOnChar ' ' p)).2.isEmpty <;>
        simp [hfin] at hl
      exact hl ▸ hww.2

theorem wrapParagraphs_not_mem (width : List Char → Rat) (maxWidth : Rat) (a : Char)
    (ha : a ≠ ' ') :
    ∀ (ps : List (List Char)), (∀ p ∈ ps, a ∉ p) →
      ∀ l ∈ wrapParagraphs width maxWidth ps, a ∉ l
  | [], _, l, hl => by simp [wrapParagraphs] at hl
  | p :: ps, hps, l, hl => by
    rw [wrapParagraphs] at hl
    rcases List.mem_append.mp hl with hl | hl
    · exact wrapParagraph_not_mem width maxWidth a ha p
        (hps p (List.mem_cons_self p ps)) l hl
    · exact wrapParagraphs_not_mem width maxWidth a ha ps
        (fun q hq => hps q (List.mem_cons_of_mem p hq)) l hl

/-- No line pushed by `breakLongString` contains a newline character. -/
theorem breakLongStringLines_no_newline (text : List Char) (maxWidth : Rat)
    (font : List Char → Rat → Rat) (fontSize : Rat) :
    ∀ l ∈ breakLongStringLines text maxWidth font fontSize, '\n' ∉ l := by
  intro l hl
  exact wrapParagraphs_not_mem _ maxWidth '\n' (by decide) (splitOnChar '\n' text)
    (splitOnChar_not_mem '\n' text) l hl

/-- The lines the renderer recovers by splitting the wrapped string are
exactly the `lines` array of `breakLongString`, except in the two
degenerate cases where that array is empty or the input text is empty,
when the join is the empty string and splitting yields one empty line. -/
theorem linesOfWrap_eq (text : List Char) (maxWidth : Rat)
    (font : List Char → Rat → Rat) (fontSize : Rat) :
    linesOfWrap text maxWidth font fontSize =
      if text.isEmpty ∨ breakLongStringLines text maxWidth font fontSize = [] then [[]]
      else breakLongStringLines text maxWidth font fontSize := by
  rw [linesOfWrap, breakLongString]
  by_cases htext : text.isEmpty
  · rw [if_pos htext, if_pos (Or.inl htext)]
    rfl
  · rw [if_neg htext]
    by_cases hnil : breakLongStringLines text maxWidth font fontSize = []
    · rw [if_pos (Or.inr hnil), hnil]
      rfl
    · rw [if_neg (fun h => h.elim htext hnil)]
      exact splitOnChar_intercalateChar '\n' _ hnil
        (breakLongStringLines_no_newline text maxWidth font fontSize)

/-! ## Claim C3 -/

/-- C3 (amended): for every text, width and width-measuring function,
every line recovered from `breakLongString` measures at most `maxWidth`,
or is a single character that alone exceeds `maxWidth`, or is the empty
line.  (The empty-line disjunct is forced: the algorithm pushes empty
lines - empty paragraphs, and the initial `charLine` flush when the very
first character of an over-wide word already overflows - and an empty
line exceeds `maxWidth` whenever the measured width of the empty string
exceeds `maxWidth`, e.g. for the
negative `maxWidth` a field narrower than twice the padding produces.) -/
theorem C3_wrap_line_width (text : List Char) (maxWidth : Rat)
    (font : List Char → Rat → Rat) (fontSize : Rat) :
    ∀ l ∈ linesOfWrap text maxWidth font fontSize,
      font l fontSize ≤ maxWidth ∨ (l.length = 1 ∧ maxWidth < font l fontSize) ∨ l = [] := by
  intro l hl
  rw [linesOfWrap_eq] at hl
  by_cases h : text.isEmpty ∨ breakLongStringLines text maxWidth font fontSize = []
  · rw [if_pos h] at hl
    rcases List.mem_singleton.mp hl with rfl
    exact Or.inr (Or.inr rfl)
  · rw [if_neg h] at hl
    exact wrapParagraphs_lineOk (fun s => font s fontSize) maxWidth _ l hl

/-- C3 witness: a concrete instantiation of `C3_wrap_line_width` on the
line `"hello"` of `wrap("hello world", 30)` under the 5-units-per-glyph
metric. -/
theorem C3_witness :
    (fun (s : List Char) (_ : Rat) => (s.length : Rat) * 5) "hello".data 8 ≤ 30 ∨
      ("hello".data.length = 1 ∧
        (30 : Rat) < (fun (s : List Char) (_ : Rat) => (s.length : Rat) * 5) "hello".data 8) ∨
      "hello".data = [] :=
  C3_wrap_line_width "hello world".data 30
    (fun s _ => (s.length : Rat) * 5) 8 "hello".data (by with_unfolding_all decide)

/-- C3 counterexample: the claim as stated (every line fits or is a
single over-wide character) is false.  With the 1-unit-per-glyph metric
and `maxWidth = -1` (reachable: `availableWidth = fieldWidth - 8` is
negative for a field narrower than 8 units), `wrap("ab", -1)` emits the
empty line pushed when the first character of the over-wide word already
overflows: that line is not a single character, and its measured width
`0` exceeds `-1`. -/
theorem C3_counterexample :
    ¬ (∀ l ∈ linesOfWrap "ab".data (-1) (fun s _ => (s.length : Rat)) 8,
      (fun (s : List Char) (_ : Rat) => (s.length : Rat)) l 8 ≤ -1 ∨
        (l.length = 1 ∧
          (-1 : Rat) < (fun (s : List Char) (_ : Rat) => (s.length : Rat)) l 8)) := by
  with_unfolding_all decide

/-! ## Claim C7 -/

theorem wrapParagraph_nil (width : List Char → Rat) (maxWidth : Rat) :
    wrapParagraph width maxWidth [] = [[]] := by
  rw [wrapParagraph]
  rw [if_pos (by simp)]

theorem wrapParagraph_single (width : List Char → Rat) (maxWidth : Rat)
    (c : Char) (hc : c ≠ ' ') :
    wrapParagraph width maxWidth [c] =
      if width [c] ≤ maxWidth then [[c]] else [[], [c]] := by
  rw [wrapParagraph]
  have hsplit : splitOnChar ' ' [c] = [[c]] :=
    splitOnChar_of_not_mem ' ' [c] (by simpa using fun h => hc h.symm)
  by_cases hw : width [c] ≤ maxWidth
  · rw [if_pos (by simp [hw]), if_pos hw]
  · rw [if_neg (by simp [hw]), if_neg hw, hsplit]
    simp [wrapWords, breakChars, hw]

theorem wrapParagraphs_eq_flatten (width : List Char → Rat) (maxWidth : Rat) :
    ∀ ps : List (List Char),
      wrapParagraphs width maxWidth ps = (ps.map (wrapParagraph width maxWidth)).flatten
  | [] => by simp [wrapParagraphs]
  | p :: ps => by
    rw [wrapParagraphs, wrapParagraphs_eq_flatten width maxWidth ps]
    simp

/-- C7 (amended): `breakLongString` splits on literal newlines and wraps
each paragraph independently (the pushed lines are the concatenation of
the lines of each paragraph, in order); an empty paragraph yields one empty
output line; and for every width and metric, the lines the renderer
recovers from `wrap("a\n\nb", W)` are exactly the lines of paragraph
`"a"`, then a blank line, then the lines of paragraph `"b"`.  (The
original claim additionally asserted that no paragraph boundary is ever
lost, which fails: a non-empty over-wide paragraph whose words all
collapse to an empty current line - e.g. a paragraph consisting of a
single space - contributes zero output lines, see `C7_counterexample`.) -/
theorem C7_newline_preservation :
    (∀ (width : List Char → Rat) (maxWidth : Rat) (text : List Char),
      breakLongStringLines text maxWidth (fun s _ => width s) 8 =
        ((splitOnChar '\n' text).map (wrapParagraph width maxWidth)).flatten) ∧
    (∀ (width : List Char → Rat) (maxWidth : Rat),
      wrapParagraph width maxWidth [] = [[]]) ∧
    (∀ (maxWidth : Rat) (font : List Char → Rat → Rat) (fontSize : Rat),
      linesOfWrap "a\n\nb".data maxWidth font fontSize =
        wrapParagraph (fun s => font s fontSize) maxWidth ['a'] ++ [[]] ++
          wrapParagraph (fun s => font s fontSize) maxWidth ['b']) := by
  refine ⟨?_, ?_, ?_⟩
  · intro width maxWidth text
    rw [breakLongStringLines, wrapParagraphs_eq_flatten]
  · intro width maxWidth
    exact wrapParagraph_nil width maxWidth
  · intro maxWidth font fontSize
    have hsplit : splitOnChar '\n' "a\n\nb".data = [['a'], [], ['b']] := by decide
    have hlines : breakLongStringLines "a\n\nb".data maxWidth font fontSize =
        wrapParagraph (fun s => font s fontSize) maxWidth ['a'] ++ [[]] ++
          wrapParagraph (fun s => font s fontSize) maxWidth ['b'] := by
      rw [breakLongStringLines, hsplit, wrapParagraphs, wrapParagraphs, wrapParagraphs,
        wrapParagraphs, wrapParagraph_nil]
      simp
    have hmem : ∀ l ∈ breakLongStringLines "a\n\nb".data maxWidth font fontSize,
        '\n' ∉ l := breakLongStringLines_no_newline _ _ _ _
    have hne : breakLongStringLines "a\n\nb".data maxWidth font fontSize ≠ [] := by
      rw [hlines]
      intro h
      have : ([] : List Char) ∈ ([] : List (List Char)) := by
        rw [← h]
        exact List.mem_append.mpr (Or.inl (List.mem_append.mpr (Or.inr (by simp))))
      exact absurd this (List.not_mem_nil [])
    rw [linesOfWrap, breakLongString, if_neg (by decide),
      splitOnChar_intercalateChar '\n' _ hne hmem, hlines]

/-- C7 counterexample: the claim as stated says every literal newline of
the input survives as an explicit line break.  With a metric giving the
space character width 20 and letters width 1, and `maxWidth = 5`, the
middle paragraph of `"a\n \nb"` (a single space) is over-wide, its two
words are both empty, so the word loop ends with an empty `currentLine`
that is never pushed: the paragraph contributes zero lines and one of the
two input newlines is lost. -/
theorem C7_counterexample :
    (breakLongString "a\n \nb".data 5
        (fun s _ => (s.map fun c => if c = ' ' then (20 : Rat) else 1).sum) 8).count '\n' = 1 ∧
      "a\n \nb".data.count '\n' = 2 := by
  with_unfolding_all decide

/-! ## Lemmas: the line-drawing loop -/

/-- Characterization of `drawLines`: it draws a prefix of the lines, the
`i`-th drawn op carries the `i`-th line at `x = fieldX + padding`,
`y = y0 - lineHeight * i`, and (for a positive line height) the `i`-th
line is drawn exactly when its cursor position is still at or above
`invertedY + padding`. -/
theorem drawLines_spec (fx p invY fs lh : Rat) (hlh : 0 < lh) :
    ∀ (lines : List (List Char)) (y : Rat),
      (drawLines fx p invY fs lh lines y).length ≤ lines.length ∧
      (∀ i, i < (drawLines fx p invY fs lh lines y).length →
        (drawLines fx p invY fs lh lines y).get? i =
          some { text := (lines.get? i).getD [], x := fx + p,
                 y := y - lh * i, size := fs }) ∧
      (∀ i, i < lines.length →
        (i < (drawLines fx p invY fs lh lines y).length ↔ invY + p ≤ y - lh * i))
  | [], y => by
    refine ⟨Nat.le_refl 0, ?_, ?_⟩ <;> intro i hi <;> simp [drawLines] at hi
  | line :: rest, y => by
    rw [drawLines]
    by_cases hy : y < invY + p
    · rw [if_pos hy]
      refine ⟨Nat.zero_le _, ?_, ?_⟩
      · intro i hi
        exact absurd hi (by simp)
      · intro i _
        simp only [List.length_nil, Nat.not_lt_zero, false_iff, not_le]
        have hnn : 0 ≤ lh * (i : Rat) :=
          mul_nonneg (le_of_lt hlh) (Nat.cast_nonneg i)
        linarith
    · rw [if_neg hy]
      obtain ⟨ih1, ih2, ih3⟩ := drawLines_spec fx p invY fs lh hlh rest (y - lh)
      refine ⟨Nat.succ_le_succ ih1, ?_, ?_⟩
      · intro i hi
        cases i with
        | zero => simp
        | succ j =>
          have hj : j < (drawLines fx p invY fs lh rest (y - lh)).length :=
            Nat.lt_of_succ_lt_succ (by simpa using hi)
          have := ih2 j hj
          simp only [List.get?_cons_succ]
          rw [this]
          congr 1
          have harith : y - lh - lh * (j : Rat) = y - lh * ((j : Nat) + 1 : Rat) := by
            ring
          simp [harith, Nat.cast_succ]
      · intro i hi
        cases i with
        | zero =>
          simp only [List.length_cons, Nat.zero_lt_succ, true_iff]
          simpa using not_lt.mp hy
        | succ j =>
          have hj : j < rest.length := Nat.lt_of_succ_lt_succ (by simpa using hi)
          have := ih3 j hj
          simp only [List.length_cons, Nat.succ_lt_succ_iff]
          rw [this]
          constructor <;> intro h <;> [skip; skip] <;>
            · have harith : y - lh - lh * (j : Rat) = y - lh * ((j : Nat) + 1 : Rat) := by
                ring
              push_cast at h ⊢
              linarith [h]

/-! ## Claim C6 -/

/-- `pageWidth * (Number(field.width) / 100)`. -/
def fieldPixelWidth (page : Page) (field : Field) : Rat :=
  page.width * (field.width / 100)

/-- `pageHeight * (Number(field.height) / 100)`. -/
def fieldPixelHeight (page : Page) (field : Field) : Rat :=
  page.height * (field.height / 100)

/-- `pageWidth * (Number(field.positionX) / 100)`. -/
def fieldPixelX (page : Page) (field : Field) : Rat :=
  page.width * (field.positionX / 100)

/-- `pageHeight * (Number(field.positionY) / 100)`. -/
def fieldPixelY (page : Page) (field : Field) : Rat :=
  page.height * (field.positionY / 100)

/-- `invertedY = pageHeight - fieldY - fieldHeight`. -/
def invertedYOf (page : Page) (field : Field) : Rat :=
  page.height - fieldPixelY page field - fieldPixelHeight page field

theorem renderFieldSeal_eq (pages : List Page) (font : List Char → Rat → Rat)
    (field : Field) (page : Page)
    (hpage : jsAt pages (field.page - 1) = some page)
    (htext : ¬field.customText.isEmpty) :
    renderFieldSeal pages font field =
      drawLines (fieldPixelX page field) 4 (invertedYOf page field) 8 (8 * (12 / 10))
        (linesOfWrap field.customText (fieldPixelWidth page field - 4 * 2) font 8)
        (invertedYOf page field + fieldPixelHeight page field - 4 - 8) := by
  simp only [renderFieldSeal, hpage, htext, if_false, linesOfWrap, fieldPixelX,
    fieldPixelWidth, fieldPixelHeight, fieldPixelY, invertedYOf, Bool.false_eq_true]

theorem renderFieldHandler_eq (pages : List Page) (field : Field) (page : Page)
    (hins : field.inserted = true)
    (hpage : jsAt pages (field.page - 1) = some page)
    (htext : ¬field.customText.isEmpty) :
    renderFieldHandler pages field =
      [{ text := field.customText, x := fieldPixelX page field + 2,
         y := invertedYOf page field + fieldPixelHeight page field / 2 - 8 / 2,
         size := 8 }] := by
  simp only [renderFieldHandler, hins, hpage, htext, if_false, Bool.not_true,
    fieldPixelX, fieldPixelHeight, fieldPixelY, invertedYOf, Bool.false_eq_true]

/-- Concrete fixtures used by witnesses and counterexamples: one
200-by-100 page, a 5-units-per-glyph font metric, and a text field at
(10%, 10%) with 20% width and height holding `"hello world"`. -/
def cPage : Page := { width := 200, height := 100 }

/-- Width metric assigning every glyph 5 units (at any font size). -/
def cFontMetric : List Char → Rat → Rat := fun s _ => (s.length : Rat) * 5

/-- A concrete inserted text field holding `"hello world"`. -/
def cFieldText : Field :=
  { type := FieldType.TEXT, page := 1, positionX := 10, positionY := 10,
    width := 20, height := 20, inserted := true,
    customText := "hello world".data, required := false }

/-- C6 (amended): in `sealDocument`, every rendered non-signature field
with `customText` is laid out by wrapping the text at font size 8 to
`fieldWidth - 2 * 4` and drawing the resulting lines top-down from
`invertedY + fieldHeight - padding - fontSize`, stepping `fontSize * 1.2`
per line and stopping silently once the cursor would pass below
`invertedY + padding`.  In `seal-document.handler.ts` the claim fails:
no wrapping occurs and the whole `customText` is drawn once at
`x = fieldX + 2`, vertically centered (see `C6_counterexample`). -/
theorem C6_field_text_layout :
    (∀ (pages : List Page) (font : List Char → Rat → Rat) (field : Field) (page : Page),
      jsAt pages (field.page - 1) = some page →
      field.customText ≠ [] →
      (renderFieldSeal pages font field).length ≤
          (linesOfWrap field.customText (fieldPixelWidth page field - 4 * 2) font 8).length ∧
        (∀ i, i < (renderFieldSeal pages font field).length →
          (renderFieldSeal pages font field).get? i =
            some { text := ((linesOfWrap field.customText
                     (fieldPixelWidth page field - 4 * 2) font 8).get? i).getD []
                   x := fieldPixelX page field + 4
                   y := invertedYOf page field + fieldPixelHeight page field - 4 - 8 -
                     8 * (12 / 10) * i
                   size := 8 }) ∧
        (∀ i, i < (linesOfWrap field.customText
            (fieldPixelWidth page field - 4 * 2) font 8).length →
          (i < (renderFieldSeal pages font field).length ↔
            invertedYOf page field + 4 ≤
              invertedYOf page field + fieldPixelHeight page field - 4 - 8 -
                8 * (12 / 10) * i))) ∧
    (∀ (pages : List Page) (field : Field) (page : Page),
      field.inserted = true →
      jsAt pages (field.page - 1) = some page →
      field.customText ≠ [] →
      renderFieldHandler pages field =
        [{ text := field.customText, x := fieldPixelX page field + 2,
           y := invertedYOf page field + fieldPixelHeight page field / 2 - 8 / 2,
           size := 8 }]) := by
  constructor
  · intro pages font field page hpage htext
    rw [renderFieldSeal_eq pages font field page hpage
      (fun h => htext (List.isEmpty_iff.mp h))]
    exact drawLines_spec (fieldPixelX page field) 4 (invertedYOf page field) 8
      (8 * (12 / 10)) (by norm_num)
      (linesOfWrap field.customText (fieldPixelWidth page field - 4 * 2) font 8)
      (invertedYOf page field + fieldPixelHeight page field - 4 - 8)
  · intro pages field page hins hpage htext
    exact renderFieldHandler_eq pages field page hins hpage
      (fun h => htext (List.isEmpty_iff.mp h))

/-- C6 witness: on the concrete field, `sealDocument` wraps
`"hello world"` into two lines and draws the first at
`(fieldX + 4, invertedY + fieldHeight - 12) = (24, 78)`; the second line
is truncated because its cursor `68.4` falls below `invertedY + 4 = 74`. -/
theorem C6_witness :
    (renderFieldSeal [cPage] cFontMetric cFieldText).get? 0 =
      some { text := "hello".data, x := 24, y := 78, size := 8 } := by
  have h := (C6_field_text_layout.1 [cPage] cFontMetric cFieldText cPage
    (by with_unfolding_all decide) (by decide)).2.1 0
    (by with_unfolding_all decide)
  rw [h]
  with_unfolding_all decide

/-- C6 counterexample: the claim as stated covers the job handler
(`seal-document.handler.ts` lines 210-221), but that variant draws the
whole unwrapped `customText` once at `x = fieldX + 2 = 22`, vertically
centered at `y = 76` - not at the claimed `x = fieldX + 4` and not
starting at `invertedY + fieldHeight - padding - fontSize = 78`, even
though the claimed wrapping would give two lines here. -/
theorem C6_counterexample :
    renderFieldHandler [cPage] cFieldText =
      [{ text := "hello world".data, x := 22, y := 76, size := 8 }] ∧
    (linesOfWrap "hello world".data (fieldPixelWidth cPage cFieldText - 4 * 2)
      cFontMetric 8).length = 2 ∧
    ¬(∀ op ∈ renderFieldHandler [cPage] cFieldText,
        op.x = fieldPixelX cPage cFieldText + 4 ∧
        op.y = invertedYOf cPage cFieldText +
          fieldPixelHeight cPage cFieldText - 4 - 8) := by
  with_unfolding_all decide

/-! ## Claim C5 -/

/-- The concrete field with `inserted = false` used by `C5_counterexample`. -/
def cFieldNotInserted : Field := { cFieldText with inserted := false, customText := "x".data }

/-- The concrete field whose page index resolves to no page. -/
def cFieldBadPage : Field := { cFieldText with page := 5 }

/-- C5 (amended): in the job handler, text is drawn only for
non-signature fields with `inserted = true` and non-empty `customText`;
in both variants a field whose page index does not resolve is skipped
silently (the renderers are total functions producing no draw
operations for it) and the remaining fields render exactly as they would
without it; signature-type fields are never drawn by the text renderer.
In `sealDocument` the `inserted` flag is not consulted, so the
inserted-only part of the claim fails there (see `C5_counterexample`). -/
theorem C5_render_gating :
    (∀ (pages : List Page) (field : Field), field.inserted = false →
      renderFieldHandler pages field = []) ∧
    (∀ (pages : List Page) (field : Field), field.customText = [] →
      renderFieldHandler pages field = []) ∧
    (∀ (pages : List Page) (font : List Char → Rat → Rat) (field : Field),
      field.customText = [] → renderFieldSeal pages font field = []) ∧
    (∀ (pages : List Page) (font : List Char → Rat → Rat) (field : Field),
      jsAt pages (field.page - 1) = none →
        renderFieldSeal pages font field = [] ∧ renderFieldHandler pages field = []) ∧
    (∀ (pages : List Page) (font : List Char → Rat → Rat) (field : Field)
        (rest : List Field),
      renderFieldSeal pages font field = [] → isSignatureFieldType field.type = false →
        renderNonSignatureFieldsSeal pages font (field :: rest) =
          renderNonSignatureFieldsSeal pages font rest) ∧
    (∀ (pages : List Page) (field : Field) (rest : List Field),
      renderFieldHandler pages field = [] → isSignatureFieldType field.type = false →
        renderNonSignatureFieldsHandler pages (field :: rest) =
          renderNonSignatureFieldsHandler pages rest) ∧
    (∀ (pages : List Page) (font : List Char → Rat → Rat) (field : Field)
        (rest : List Field), isSignatureFieldType field.type = true →
      renderNonSignatureFieldsSeal pages font (field :: rest) =
          renderNonSignatureFieldsSeal pages font rest ∧
        renderNonSignatureFieldsHandler pages (field :: rest) =
          renderNonSignatureFieldsHandler pages rest) := by
  refine ⟨?_, ?_, ?_, ?_, ?_, ?_, ?_⟩
  · intro pages field hins
    simp [renderFieldHandler, hins]
  · intro pages field htext
    rw [renderFieldHandler]
    by_cases hins : field.inserted
    · simp only [hins, Bool.not_true, if_false, Bool.false_eq_true]
      rcases h : jsAt pages (field.page - 1) with _ | page
      · rfl
      · simp [htext]
    · simp [hins]
  · intro pages font field htext
    rw [renderFieldSeal]
    rcases h : jsAt pages (field.page - 1) with _ | page
    · rfl
    · simp [htext]
  · intro pages font field hpage
    constructor
    · rw [renderFieldSeal, hpage]
    · rw [renderFieldHandler]
      by_cases hins : field.inserted
      · simp only [hins, Bool.not_true, if_false, Bool.false_eq_true]
        rw [hpage]
      · simp [hins]
  · intro pages font field rest hskip hsig
    rw [renderNonSignatureFieldsSeal, renderNonSignatureFieldsSeal,
      List.filter_cons_of_pos (by simp [hsig]), List.flatMap_cons, hskip,
      List.nil_append]
  · intro pages field rest hskip hsig
    rw [renderNonSignatureFieldsHandler, renderNonSignatureFieldsHandler,
      List.filter_cons_of_pos (by simp [hsig]), List.flatMap_cons, hskip,
      List.nil_append]
  · intro pages font field rest hsig
    constructor
    · rw [renderNonSignatureFieldsSeal, renderNonSignatureFieldsSeal,
        List.filter_cons_of_neg (by simp [hsig])]
    · rw [renderNonSignatureFieldsHandler, renderNonSignatureFieldsHandler,
        List.filter_cons_of_neg (by simp [hsig])]

/-- C5 witness: concrete instantiations - a non-inserted field renders
nothing in the handler, and a field referencing page 5 of a one-page
document is skipped by both renderers. -/
theorem C5_witness :
    renderFieldHandler [cPage] cFieldNotInserted = [] ∧
      renderFieldSeal [cPage] cFontMetric cFieldBadPage = [] ∧
      renderFieldHandler [cPage] cFieldBadPage = [] :=
  ⟨C5_render_gating.1 [cPage] cFieldNotInserted (by with_unfolding_all decide),
    (C5_render_gating.2.2.2.1 [cPage] cFontMetric cFieldBadPage
      (by with_unfolding_all decide)).1,
    (C5_render_gating.2.2.2.1 [cPage] cFontMetric cFieldBadPage
      (by with_unfolding_all decide)).2⟩

/-- C5 counterexample: the claim as stated covers `sealDocument`
(`seal-document.ts` lines 157-211), but that loop never reads
`field.inserted`: a non-inserted text field with customText `"x"` is
still drawn. -/
theorem C5_counterexample :
    cFieldNotInserted.inserted = false ∧
      renderFieldSeal [cPage] cFontMetric cFieldNotInserted =
        [{ text := "x".data, x := 24, y := 78, size := 8 }] := by
  with_unfolding_all decide

/-! ## Concrete sealing fixtures -/

/-- A concrete `DocumentData` row. -/
def cDocData : DocumentData := { id := 7, data := "ref-current", initialData := "ref-initial" }

/-- An all-collaborators-succeed environment. -/
def cEnv : SealEnv :=
  { loadPages := fun _ => some [cPage]
    font := cFontMetric
    signOk := true
    putOk := true
    txOk := true
    freshBlobId := "blob1"
    freshBlobRef := "ref-new"
    txId := "tx1"
    now := 1700000000
    freshQrToken := "qr-fresh"
    findDocumentData := fun i => if i = 7 then some cDocData else none }

/-- A signer who has signed. -/
def cRecipientSigned : Recipient :=
  { signingStatus := SigningStatus.SIGNED, role := RecipientRole.SIGNER,
    rejectionReason := none }

/-- A CC recipient who is still pending. -/
def cRecipientPendingCC : Recipient :=
  { signingStatus := SigningStatus.PENDING, role := RecipientRole.CC,
    rejectionReason := none }

/-- A signer who is still pending. -/
def cRecipientPending : Recipient :=
  { signingStatus := SigningStatus.PENDING, role := RecipientRole.SIGNER,
    rejectionReason := none }

/-- A signer who rejected, with a recorded reason. -/
def cRecipientRejected : Recipient :=
  { signingStatus := SigningStatus.REJECTED, role := RecipientRole.SIGNER,
    rejectionReason := some "bad terms" }

/-- A pending document whose non-CC recipients have all signed but whose
CC recipient is still pending. -/
def cDocCC : Document :=
  { id := 1, title := "Contract", status := DocumentStatus.PENDING,
    recipients := [cRecipientSigned, cRecipientPendingCC],
    documentData := some cDocData, documentDataId := 7,
    useLegacyFieldInsertion := false, qrToken := some "qr-existing",
    teamIncludeSigningCertificate := none }

/-- A pending document with one signed signer and one pending signer. -/
def cDocPending : Document :=
  { cDocCC with recipients := [cRecipientSigned, cRecipientPending] }

/-- A pending document with one rejected signer and one pending signer. -/
def cDocRejected : Document :=
  { cDocCC with recipients := [cRecipientRejected, cRecipientPending] }

/-- The seal input for `cDocCC` with no fields. -/
def cInputCC : SealInput := { documentId := 1, doc := some cDocCC, fields := [], env := cEnv }

/-- The seal input for `cDocPending`. -/
def cInputPending : SealInput := { cInputCC with doc := some cDocPending }

/-- The seal input for `cDocRejected`. -/
def cInputRejected : SealInput := { cInputCC with doc := some cDocRejected }

/-- The database state before sealing. -/
def cState : DbState :=
  { docStatus := DocumentStatus.PENDING, docCompletedAt := none,
    docQrToken := some "qr-existing", docDataRef := "ref-current",
    auditLog := [], blobs := [], loads := [], stamps := [], draws := [],
    emails := [], webhooks := [], analytics := [] }

/-! ## Lemmas: stage results of the two sealing entry points -/

theorem sealPersist_result (inp : SealInput) (doc : Document) (s : DbState) :
    (sealPersist inp doc s).2 = Except.ok () ∨
      (sealPersist inp doc s).2 = Except.error SealError.txFailed := by
  rw [sealPersist]
  by_cases ht : inp.env.txOk <;> simp [ht]

theorem sealPersist_ne_notComplete (inp : SealInput) (doc : Document) (s : DbState) :
    (sealPersist inp doc s).2 ≠ Except.error SealError.notComplete := by
  intro h
  rcases sealPersist_result inp doc s with h2 | h2 <;> rw [h] at h2 <;> simp at h2

theorem sealEffects_ne_notComplete (inp : SealInput) (doc : Document)
    (dd : DocumentData) (s : DbState) :
    (sealEffects inp doc dd s).2 ≠ Except.error SealError.notComplete := by
  simp only [sealEffects]
  split
  · simp
  · split
    · simp
    · split
      · simp
      · exact sealPersist_ne_notComplete inp doc _

theorem handlerDecorate_ne_notComplete (cache : RunCache) (inp : SealInput)
    (doc : Document) (workingRef : String) (s : DbState) :
    (handlerDecorate cache inp doc workingRef s).2 ≠
      Except.error SealError.notComplete := by
  simp only [handlerDecorate]
  split
  · simp
  · split
    · simp
    · split
      · simp
      · split
        · simp
        · simp

theorem handlerUpdate_ne_notComplete (cache : RunCache) (inp : SealInput)
    (doc : Document) (newDataId : String) (s : DbState) :
    (handlerUpdate cache inp doc newDataId s).2 ≠
      Except.error SealError.notComplete := by
  simp only [handlerUpdate]
  split
  · simp
  · split
    · simp
    · split
      · simp
      · simp

theorem handlerFinish_ok (cache : RunCache) (inp : SealInput) (doc : Document)
    (s : DbState) : (handlerFinish cache inp doc s).2 = Except.ok () := by
  rw [handlerFinish]

theorem handlerTail_ne_notComplete (cache : RunCache) (inp : SealInput)
    (doc : Document) (workingRef : String) (t : DbState) :
    (handlerTail cache inp doc workingRef t).2 ≠ Except.error SealError.notComplete := by
  rcases hD : handlerDecorate cache inp doc workingRef t with ⟨s5, rD⟩
  cases rD with
  | error e =>
    have hne := handlerDecorate_ne_notComplete cache inp doc workingRef t
    rw [hD] at hne
    simpa [handlerTail, hD] using hne
  | ok id =>
    rcases hU : handlerUpdate cache inp doc id
        { s5 with analytics := s5.analytics ++ [doc.id] } with ⟨s7, rU⟩
    cases rU with
    | error e =>
      have hne := handlerUpdate_ne_notComplete cache inp doc id
        { s5 with analytics := s5.analytics ++ [doc.id] }
      rw [hU] at hne
      simpa [handlerTail, hD, hU] using hne
    | ok u =>
      have hf := handlerFinish_ok cache inp doc s7
      simp [handlerTail, hD, hU]
      rw [hf]
      simp

/-! ## Claim C1 -/

/-- C1 (amended): `sealDocument` behaves as claimed - with no rejected
non-CC recipient and some non-CC recipient unsigned it throws the
completion error before performing any state change, and with every
non-CC recipient signed it never throws that error, CC recipients being
excluded by the recipient query.  The job handler `run`, however,
computes its completion check over all of `document.recipients`
including CC: it throws "Document is not complete" exactly when no
recipient (of any role) rejected and not every recipient (including CC)
signed (see `C1_counterexample`). -/
theorem C1_completion_check :
    (∀ (inp : SealInput) (s : DbState) (doc : Document) (dd : DocumentData),
      inp.doc = some doc → doc.documentData = some dd →
      rejectedRecipientOf doc = none →
      ((nonCCRecipients doc).any fun r => r.signingStatus ≠ SigningStatus.SIGNED) = true →
      sealDocument inp s = (s, Except.error SealError.notComplete)) ∧
    (∀ (inp : SealInput) (s : DbState) (doc : Document),
      inp.doc = some doc →
      ((nonCCRecipients doc).any fun r => r.signingStatus ≠ SigningStatus.SIGNED) = false →
      (sealDocument inp s).2 ≠ Except.error SealError.notComplete) ∧
    (∀ (cache : RunCache) (inp : SealInput) (s : DbState) (doc : Document),
      inp.doc = some doc →
      (runHandler cache inp s = (s, Except.error SealError.notComplete) ↔
        ((doc.recipients.any fun r => r.signingStatus = SigningStatus.REJECTED) ||
          (doc.recipients.all fun r => r.signingStatus = SigningStatus.SIGNED)) = false)) := by
  refine ⟨?_, ?_, ?_⟩
  · intro inp s doc dd hdoc hdd hnorej hany
    have hrej : isRejectedOf doc = false := by
      rw [isRejectedOf, hnorej]
      rfl
    have hcond : (!isRejectedOf doc &&
        ((nonCCRecipients doc).any fun r => r.signingStatus ≠ SigningStatus.SIGNED)) = true := by
      rw [hrej, hany]
      rfl
    simp only [sealDocument, hdoc, hdd]
    rw [hcond]
    simp
  · intro inp s doc hdoc hall
    cases hdd : doc.documentData with
    | none => simp [sealDocument, hdoc, hdd]
    | some dd =>
      have hcond : (!isRejectedOf doc &&
          ((nonCCRecipients doc).any fun r => r.signingStatus ≠ SigningStatus.SIGNED)) = false := by
        rw [hall, Bool.and_false]
      simp only [sealDocument, hdoc, hdd]
      rw [hcond]
      simp only [Bool.false_eq_true, if_false]
      split
      · simp
      · exact sealEffects_ne_notComplete inp doc dd s
  · intro cache inp s doc hdoc
    constructor
    · intro h
      by_contra hp
      rw [Bool.not_eq_false] at hp
      simp only [runHandler, hdoc, hp, Bool.not_true, Bool.false_eq_true, if_false] at h
      split at h
      · simp at h
      · split at h
        · simp at h
        · exact handlerTail_ne_notComplete _ _ _ _ _ (congrArg Prod.snd h)
    · intro hp
      simp [runHandler, hdoc, hp]

/-- C1 witness: with one signed and one pending signer, `sealDocument`
throws the completion error leaving the state untouched; with all non-CC
recipients signed and a CC recipient pending, it does not. -/
theorem C1_witness :
    sealDocument cInputPending cState = (cState, Except.error SealError.notComplete) ∧
      (sealDocument cInputCC cState).2 ≠ Except.error SealError.notComplete :=
  ⟨C1_completion_check.1 cInputPending cState cDocPending cDocData
      (by with_unfolding_all decide) (by with_unfolding_all decide)
      (by with_unfolding_all decide) (by with_unfolding_all decide),
    C1_completion_check.2.1 cInputCC cState cDocCC
      (by with_unfolding_all decide) (by with_unfolding_all decide)⟩

/-- C1 counterexample: the claim as stated says CC recipients never
affect the completion check, so a document whose non-CC recipients have
all signed completes even with a pending CC recipient.  The job handler
(`seal-document.handler.ts` lines 68-76) checks
`document.recipients.every(SIGNED)` over all recipients including CC,
so it throws "Document is not complete" on exactly that document. -/
theorem C1_counterexample :
    ((nonCCRecipients cDocCC).all fun r => r.signingStatus = SigningStatus.SIGNED) = true ∧
      rejectedRecipientOf cDocCC = none ∧
      runHandler {} cInputCC cState = (cState, Except.error SealError.notComplete) := by
  with_unfolding_all decide

/-! ## Closed forms of the sealing stages -/

theorem sealPersist_of_txFail (inp : SealInput) (doc : Document) (s : DbState)
    (h : inp.env.txOk = false) :
    sealPersist inp doc s =
      ({ s with blobs := s.blobs ++ [(inp.env.freshBlobId, inp.env.freshBlobRef)]
                analytics := s.analytics ++ [doc.id] },
        Except.error SealError.txFailed) := by
  simp [sealPersist, h]

theorem sealPersist_of_txOk (inp : SealInput) (doc : Document) (s : DbState)
    (h : inp.env.txOk = true) :
    sealPersist inp doc s =
      ({ s with blobs := s.blobs ++ [(inp.env.freshBlobId, inp.env.freshBlobRef)]
                analytics := s.analytics ++ [doc.id]
                docStatus := if isRejectedOf doc then DocumentStatus.REJECTED
                  else DocumentStatus.COMPLETED
                docCompletedAt := some inp.env.now
                docDataRef := inp.env.freshBlobRef
                auditLog := s.auditLog ++ [sealAuditEntry doc inp.env.txId]
                emails := s.emails ++
                  (if inp.sendEmail && !inp.isResealing then [doc.id] else [])
                webhooks := s.webhooks ++ [{
                  event := if isRejectedOf doc then WebhookEvent.DOCUMENT_REJECTED
                    else WebhookEvent.DOCUMENT_COMPLETED
                  documentId := doc.id }] },
        Except.ok ()) := by
  by_cases he : (inp.sendEmail && !inp.isResealing) = true <;>
    simp [sealPersist, h, he]

/-- The state after the render phase of `sealEffects`: the working bytes
read, the rejection stamp drawn when applicable, all non-signature field
text drawn. -/
def sealRendered (inp : SealInput) (doc : Document) (dd : DocumentData)
    (pages : List Page) (s : DbState) : DbState :=
  { s with
    loads := s.loads ++ [if inp.isResealing then dd.initialData else dd.data]
    stamps := s.stamps ++
      (if isRejectedOf doc && rejectionReasonOf doc ≠ "" then [rejectionReasonOf doc] else [])
    draws := s.draws ++ renderNonSignatureFieldsSeal pages inp.env.font inp.fields }

theorem sealEffects_of_loadFail (inp : SealInput) (doc : Document) (dd : DocumentData)
    (s : DbState)
    (hl : inp.env.loadPages (if inp.isResealing then dd.initialData else dd.data) = none) :
    sealEffects inp doc dd s =
      ({ s with loads := s.loads ++
          [if inp.isResealing then dd.initialData else dd.data] },
        Except.error SealError.loadFailed) := by
  simp [sealEffects, hl]

theorem sealEffects_of_signFail (inp : SealInput) (doc : Document) (dd : DocumentData)
    (pages : List Page) (s : DbState)
    (hl : inp.env.loadPages (if inp.isResealing then dd.initialData else dd.data) = some pages)
    (hsig : inp.env.signOk = false) :
    sealEffects inp doc dd s =
      (sealRendered inp doc dd pages s, Except.error SealError.signFailed) := by
  by_cases hst : isRejectedOf doc = true ∧ ¬rejectionReasonOf doc = "" <;>
    simp [sealEffects, sealRendered, hl, hsig, hst]

theorem sealEffects_of_putFail (inp : SealInput) (doc : Document) (dd : DocumentData)
    (pages : List Page) (s : DbState)
    (hl : inp.env.loadPages (if inp.isResealing then dd.initialData else dd.data) = some pages)
    (hsig : inp.env.signOk = true) (hput : inp.env.putOk = false) :
    sealEffects inp doc dd s =
      (sealRendered inp doc dd pages s, Except.error SealError.putFailed) := by
  by_cases hst : isRejectedOf doc = true ∧ ¬rejectionReasonOf doc = "" <;>
    simp [sealEffects, sealRendered, hl, hsig, hput, hst]

theorem sealEffects_of_txFail (inp : SealInput) (doc : Document) (dd : DocumentData)
    (pages : List Page) (s : DbState)
    (hl : inp.env.loadPages (if inp.isResealing then dd.initialData else dd.data) = some pages)
    (hsig : inp.env.signOk = true) (hput : inp.env.putOk = true)
    (ht : inp.env.txOk = false) :
    sealEffects inp doc dd s =
      ({ sealRendered inp doc dd pages s with
          blobs := s.blobs ++ [(inp.env.freshBlobId, inp.env.freshBlobRef)]
          analytics := s.analytics ++ [doc.id] },
        Except.error SealError.txFailed) := by
  by_cases hst : isRejectedOf doc = true ∧ ¬rejectionReasonOf doc = "" <;>
    · simp only [sealEffects, hl, hsig, hput, Bool.not_true, Bool.false_eq_true, if_false,
        Bool.not_false]
      rw [sealPersist_of_txFail inp doc _ ht]
      simp [sealRendered, hst]

theorem sealEffects_of_ok (inp : SealInput) (doc : Document) (dd : DocumentData)
    (pages : List Page) (s : DbState)
    (hl : inp.env.loadPages (if inp.isResealing then dd.initialData else dd.data) = some pages)
    (hsig : inp.env.signOk = true) (hput : inp.env.putOk = true)
    (ht : inp.env.txOk = true) :
    sealEffects inp doc dd s =
      ({ sealRendered inp doc dd pages s with
          blobs := s.blobs ++ [(inp.env.freshBlobId, inp.env.freshBlobRef)]
          analytics := s.analytics ++ [doc.id]
          docStatus := if isRejectedOf doc then DocumentStatus.REJECTED
            else DocumentStatus.COMPLETED
          docCompletedAt := some inp.env.now
          docDataRef := inp.env.freshBlobRef
          auditLog := s.auditLog ++ [sealAuditEntry doc inp.env.txId]
          emails := s.emails ++ (if inp.sendEmail && !inp.isResealing then [doc.id] else [])
          webhooks := s.webhooks ++ [{
            event := if isRejectedOf doc then WebhookEvent.DOCUMENT_REJECTED
              else WebhookEvent.DOCUMENT_COMPLETED
            documentId := doc.id }] },
        Except.ok ()) := by
  by_cases hst : isRejectedOf doc = true ∧ ¬rejectionReasonOf doc = "" <;>
    · simp only [sealEffects, hl, hsig, hput, Bool.not_true, Bool.false_eq_true, if_false,
        Bool.not_false]
      rw [sealPersist_of_txOk inp doc _ ht]
      simp [sealRendered, hst]

/-- The state after the render phase of the decorate task of the handler
(rejection stamp plus inserted-field text; the storage read is logged by
`runHandler` itself, before the task). -/
def handlerRendered (inp : SealInput) (doc : Document) (pages : List Page)
    (s : DbState) : DbState :=
  { s with
    stamps := s.stamps ++
      (if isRejectedOf doc && rejectionReasonOf doc ≠ "" then [rejectionReasonOf doc] else [])
    draws := s.draws ++ renderNonSignatureFieldsHandler pages inp.fields }

theorem handlerDecorate_of_cached (cache : RunCache) (inp : SealInput) (doc : Document)
    (workingRef : String) (s : DbState) (id : String) (h : cache.newDataId = some id) :
    handlerDecorate cache inp doc workingRef s = (s, Except.ok id) := by
  simp [handlerDecorate, h]

theorem handlerDecorate_of_loadFail (cache : RunCache) (inp : SealInput) (doc : Document)
    (workingRef : String) (s : DbState) (hc : cache.newDataId = none)
    (hl : inp.env.loadPages workingRef = none) :
    handlerDecorate cache inp doc workingRef s = (s, Except.error SealError.loadFailed) := by
  simp [handlerDecorate, hc, hl]

theorem handlerDecorate_of_signFail (cache : RunCache) (inp : SealInput) (doc : Document)
    (workingRef : String) (pages : List Page) (s : DbState) (hc : cache.newDataId = none)
    (hl : inp.env.loadPages workingRef = some pages) (hsig : inp.env.signOk = false) :
    handlerDecorate cache inp doc workingRef s =
      (handlerRendered inp doc pages s, Except.error SealError.signFailed) := by
  by_cases hst : isRejectedOf doc = true ∧ ¬rejectionReasonOf doc = "" <;>
    simp [handlerDecorate, handlerRendered, hc, hl, hsig, hst]

theorem handlerDecorate_of_putFail (cache : RunCache) (inp : SealInput) (doc : Document)
    (workingRef : String) (pages : List Page) (s : DbState) (hc : cache.newDataId = none)
    (hl : inp.env.loadPages workingRef = some pages) (hsig : inp.env.signOk = true)
    (hput : inp.env.putOk = false) :
    handlerDecorate cache inp doc workingRef s =
      (handlerRendered inp doc pages s, Except.error SealError.putFailed) := by
  by_cases hst : isRejectedOf doc = true ∧ ¬rejectionReasonOf doc = "" <;>
    simp [handlerDecorate, handlerRendered, hc, hl, hsig, hput, hst]

theorem handlerDecorate_of_ok (cache : RunCache) (inp : SealInput) (doc : Document)
    (workingRef : String) (pages : List Page) (s : DbState) (hc : cache.newDataId = none)
    (hl : inp.env.loadPages workingRef = some pages) (hsig : inp.env.signOk = true)
    (hput : inp.env.putOk = true) :
    handlerDecorate cache inp doc workingRef s =
      ({ handlerRendered inp doc pages s with
          blobs := s.blobs ++ [(inp.env.freshBlobId, inp.env.freshBlobRef)] },
        Except.ok inp.env.freshBlobId) := by
  by_cases hst : isRejectedOf doc = true ∧ ¬rejectionReasonOf doc = "" <;>
    simp [handlerDecorate, handlerRendered, hc, hl, hsig, hput, hst]

theorem handlerUpdate_of_cached (cache : RunCache) (inp : SealInput) (doc : Document)
    (newDataId : String) (s : DbState) (h : cache.updateDone = true) :
    handlerUpdate cache inp doc newDataId s = (s, Except.ok ()) := by
  simp [handlerUpdate, h]

theorem handlerUpdate_of_txFail (cache : RunCache) (inp : SealInput) (doc : Document)
    (newDataId : String) (s : DbState) (hc : cache.updateDone = false)
    (ht : inp.env.txOk = false) :
    handlerUpdate cache inp doc newDataId s = (s, Except.error SealError.txFailed) := by
  simp [handlerUpdate, hc, ht]

theorem handlerUpdate_of_notFound (cache : RunCache) (inp : SealInput) (doc : Document)
    (newDataId : String) (s : DbState) (hc : cache.updateDone = false)
    (ht : inp.env.txOk = true)
    (hfind : (s.blobs.find? fun b => b.1 = newDataId) = none) :
    handlerUpdate cache inp doc newDataId s =
      (s, Except.error SealError.newDataNotFound) := by
  simp [handlerUpdate, hc, ht, hfind]

theorem handlerUpdate_of_ok (cache : RunCache) (inp : SealInput) (doc : Document)
    (newDataId : String) (s : DbState) (newData : String × String)
    (hc : cache.updateDone = false) (ht : inp.env.txOk = true)
    (hfind : (s.blobs.find? fun b => b.1 = newDataId) = some newData) :
    handlerUpdate cache inp doc newDataId s =
      ({ s with
          docStatus := if isRejectedOf doc then DocumentStatus.REJECTED
            else DocumentStatus.COMPLETED
          docCompletedAt := some inp.env.now
          docDataRef := newData.2
          auditLog := s.auditLog ++ [sealAuditEntry doc inp.env.txId] },
        Except.ok ()) := by
  simp [handlerUpdate, hc, ht, hfind]

theorem handlerFinish_eq (cache : RunCache) (inp : SealInput) (doc : Document)
    (s : DbState) :
    handlerFinish cache inp doc s =
      ({ s with
          emails := s.emails ++
            (if !cache.emailDone && handlerShouldSendEmail inp doc then [doc.id] else [])
          webhooks := s.webhooks ++ [{
            event := if isRejectedOf doc then WebhookEvent.DOCUMENT_REJECTED
              else WebhookEvent.DOCUMENT_COMPLETED
            documentId := doc.id }] },
        Except.ok ()) := by
  by_cases hc : cache.emailDone <;>
    by_cases hs : handlerShouldSendEmail inp doc <;>
    simp [handlerFinish, hc, hs]

theorem sealDocument_eq_effects (inp : SealInput) (s : DbState) (doc : Document)
    (dd : DocumentData) (hdoc : inp.doc = some doc) (hdd : doc.documentData = some dd)
    (h1 : (!isRejectedOf doc &&
      ((nonCCRecipients doc).any fun r => r.signingStatus ≠ SigningStatus.SIGNED)) = false)
    (h2 : (!isRejectedOf doc && fieldsContainUnsignedRequiredField inp.fields) = false) :
    sealDocument inp s = sealEffects inp doc dd s := by
  simp only [sealDocument, hdoc, hdd]
  rw [h1, h2]
  simp

/-- Which fields of the state `sealEffects` changes, by outcome: on
success the status/timestamp/data-reference/audit-log quadruple plus the
email and webhook logs take their final values together; on any failure
none of them changes. -/
theorem sealEffects_spec (inp : SealInput) (doc : Document) (dd : DocumentData)
    (s : DbState) :
    ((sealEffects inp doc dd s).2 = Except.ok () ∧
      (sealEffects inp doc dd s).1.docStatus =
        (if isRejectedOf doc then DocumentStatus.REJECTED else DocumentStatus.COMPLETED) ∧
      (sealEffects inp doc dd s).1.docCompletedAt = some inp.env.now ∧
      (sealEffects inp doc dd s).1.docDataRef = inp.env.freshBlobRef ∧
      (sealEffects inp doc dd s).1.auditLog = s.auditLog ++ [sealAuditEntry doc inp.env.txId] ∧
      (sealEffects inp doc dd s).1.emails = s.emails ++
        (if inp.sendEmail && !inp.isResealing then [doc.id] else []) ∧
      (sealEffects inp doc dd s).1.webhooks = s.webhooks ++ [{
        event := if isRejectedOf doc then WebhookEvent.DOCUMENT_REJECTED
          else WebhookEvent.DOCUMENT_COMPLETED
        documentId := doc.id }]) ∨
    ((∃ e, (sealEffects inp doc dd s).2 = Except.error e) ∧
      (sealEffects inp doc dd s).1.docStatus = s.docStatus ∧
      (sealEffects inp doc dd s).1.docCompletedAt = s.docCompletedAt ∧
      (sealEffects inp doc dd s).1.docDataRef = s.docDataRef ∧
      (sealEffects inp doc dd s).1.auditLog = s.auditLog ∧
      (sealEffects inp doc dd s).1.emails = s.emails ∧
      (sealEffects inp doc dd s).1.webhooks = s.webhooks) := by
  cases hl : inp.env.loadPages (if inp.isResealing then dd.initialData else dd.data) with
  | none =>
    right
    rw [sealEffects_of_loadFail inp doc dd s hl]
    simp
  | some pages =>
    by_cases hsig : inp.env.signOk
    · by_cases hput : inp.env.putOk
      · by_cases ht : inp.env.txOk
        · left
          rw [sealEffects_of_ok inp doc dd pages s hl hsig hput ht]
          simp [sealRendered]
        · right
          rw [sealEffects_of_txFail inp doc dd pages s hl hsig hput
            (Bool.not_eq_true _ ▸ ht)]
          simp [sealRendered]
      · right
        rw [sealEffects_of_putFail inp doc dd pages s hl hsig (Bool.not_eq_true _ ▸ hput)]
        simp [sealRendered]
    · right
      rw [sealEffects_of_signFail inp doc dd pages s hl (Bool.not_eq_true _ ▸ hsig)]
      simp [sealRendered]

/-- The storage read of `sealEffects` happens before any failure point:
whatever the outcome, exactly the working reference is appended to the
read log. -/
theorem sealEffects_loads (inp : SealInput) (doc : Document) (dd : DocumentData)
    (s : DbState) :
    (sealEffects inp doc dd s).1.loads =
      s.loads ++ [if inp.isResealing then dd.initialData else dd.data] := by
  cases hl : inp.env.loadPages (if inp.isResealing then dd.initialData else dd.data) with
  | none =>
    rw [sealEffects_of_loadFail inp doc dd s hl]
  | some pages =>
    by_cases hsig : inp.env.signOk
    · by_cases hput : inp.env.putOk
      · by_cases ht : inp.env.txOk
        · rw [sealEffects_of_ok inp doc dd pages s hl hsig hput ht]
          simp [sealRendered]
        · rw [sealEffects_of_txFail inp doc dd pages s hl hsig hput (Bool.not_eq_true _ ▸ ht)]
          simp [sealRendered]
      · rw [sealEffects_of_putFail inp doc dd pages s hl hsig (Bool.not_eq_true _ ▸ hput)]
        simp [sealRendered]
    · rw [sealEffects_of_signFail inp doc dd pages s hl (Bool.not_eq_true _ ▸ hsig)]
      simp [sealRendered]

theorem runHandler_of_notComplete (cache : RunCache) (inp : SealInput) (s : DbState)
    (doc : Document) (hdoc : inp.doc = some doc)
    (hcomp : ((doc.recipients.any fun r => r.signingStatus = SigningStatus.REJECTED) ||
      (doc.recipients.all fun r => r.signingStatus = SigningStatus.SIGNED)) = false) :
    runHandler cache inp s = (s, Except.error SealError.notComplete) := by
  simp only [runHandler, hdoc]
  rw [hcomp]
  simp

theorem runHandler_of_noData (cache : RunCache) (inp : SealInput) (s : DbState)
    (doc : Document) (hdoc : inp.doc = some doc)
    (hcomp : ((doc.recipients.any fun r => r.signingStatus = SigningStatus.REJECTED) ||
      (doc.recipients.all fun r => r.signingStatus = SigningStatus.SIGNED)) = true)
    (hfind : inp.env.findDocumentData (cache.dataId.getD doc.documentDataId) = none) :
    runHandler cache inp s = (s, Except.error SealError.noDocumentData) := by
  simp only [runHandler, hdoc]
  rw [hcomp, hfind]
  simp

theorem runHandler_of_unsigned (cache : RunCache) (inp : SealInput) (s : DbState)
    (doc : Document) (dd : DocumentData) (hdoc : inp.doc = some doc)
    (hcomp : ((doc.recipients.any fun r => r.signingStatus = SigningStatus.REJECTED) ||
      (doc.recipients.all fun r => r.signingStatus = SigningStatus.SIGNED)) = true)
    (hfind : inp.env.findDocumentData (cache.dataId.getD doc.documentDataId) = some dd)
    (hflds : (!isRejectedOf doc && fieldsContainUnsignedRequiredField inp.fields) = true) :
    runHandler cache inp s = (s, Except.error SealError.unsignedRequiredFields) := by
  simp only [runHandler, hdoc]
  rw [hcomp, hfind, hflds]
  simp

theorem runHandler_of_main (cache : RunCache) (inp : SealInput) (s : DbState)
    (doc : Document) (dd : DocumentData) (hdoc : inp.doc = some doc)
    (hcomp : ((doc.recipients.any fun r => r.signingStatus = SigningStatus.REJECTED) ||
      (doc.recipients.all fun r => r.signingStatus = SigningStatus.SIGNED)) = true)
    (hfind : inp.env.findDocumentData (cache.dataId.getD doc.documentDataId) = some dd)
    (hflds : (!isRejectedOf doc && fieldsContainUnsignedRequiredField inp.fields) = false) :
    runHandler cache inp s =
      handlerTail cache inp doc (if inp.isResealing then dd.initialData else dd.data)
        { (if doc.qrToken.isNone then { s with docQrToken := some inp.env.freshQrToken }
            else s) with
          loads := (if doc.qrToken.isNone then
              { s with docQrToken := some inp.env.freshQrToken } else s).loads ++
            [if inp.isResealing then dd.initialData else dd.data] } := by
  simp only [runHandler, hdoc]
  rw [hcomp, hfind, hflds]
  rfl

theorem find?_append_fresh (l : List (String × String)) (id ref : String)
    (h : ∀ b ∈ l, b.1 ≠ id) :
    ((l ++ [(id, ref)]).find? fun b => b.1 = id) = some (id, ref) := by
  induction l with
  | nil => simp
  | cons b bs ih =>
    rw [List.cons_append, List.find?_cons_of_neg _ (by
      simpa using h b (List.mem_cons_self b bs))]
    exact ih fun x hx => h x (List.mem_cons_of_mem b hx)

/-- Which fields of the state the handler tail changes, by outcome: on
success the status/timestamp/data-reference/audit-log quadruple plus the
email and webhook logs take their final values together (with the fresh
blob reference found by `findFirstOrThrow` inside the transaction); on any
failure none of them changes.  Requires a first run of the
`update-document` and `decorate-and-sign-pdf` tasks and freshness of the
content-addressed blob id. -/
theorem handlerTail_spec (cache : RunCache) (inp : SealInput) (doc : Document)
    (workingRef : String) (t : DbState)
    (hud : cache.updateDone = false) (hnd : cache.newDataId = none)
    (hfresh : ∀ b ∈ t.blobs, b.1 ≠ inp.env.freshBlobId) :
    ((handlerTail cache inp doc workingRef t).2 = Except.ok () ∧
      (handlerTail cache inp doc workingRef t).1.docStatus =
        (if isRejectedOf doc then DocumentStatus.REJECTED else DocumentStatus.COMPLETED) ∧
      (handlerTail cache inp doc workingRef t).1.docCompletedAt = some inp.env.now ∧
      (handlerTail cache inp doc workingRef t).1.docDataRef = inp.env.freshBlobRef ∧
      (handlerTail cache inp doc workingRef t).1.auditLog =
        t.auditLog ++ [sealAuditEntry doc inp.env.txId] ∧
      (handlerTail cache inp doc workingRef t).1.emails = t.emails ++
        (if !cache.emailDone && handlerShouldSendEmail inp doc then [doc.id] else []) ∧
      (handlerTail cache inp doc workingRef t).1.webhooks = t.webhooks ++ [{
        event := if isRejectedOf doc then WebhookEvent.DOCUMENT_REJECTED
          else WebhookEvent.DOCUMENT_COMPLETED
        documentId := doc.id }] ∧
      (handlerTail cache inp doc workingRef t).1.loads = t.loads) ∨
    ((∃ e, (handlerTail cache inp doc workingRef t).2 = Except.error e) ∧
      (handlerTail cache inp doc workingRef t).1.docStatus = t.docStatus ∧
      (handlerTail cache inp doc workingRef t).1.docCompletedAt = t.docCompletedAt ∧
      (handlerTail cache inp doc workingRef t).1.docDataRef = t.docDataRef ∧
      (handlerTail cache inp doc workingRef t).1.auditLog = t.auditLog ∧
      (handlerTail cache inp doc workingRef t).1.emails = t.emails ∧
      (handlerTail cache inp doc workingRef t).1.webhooks = t.webhooks ∧
      (handlerTail cache inp doc workingRef t).1.loads = t.loads) := by
  cases hl : inp.env.loadPages workingRef with
  | none =>
    right
    have hD := handlerDecorate_of_loadFail cache inp doc workingRef t hnd hl
    simp [handlerTail, hD]
  | some pages =>
    by_cases hsig : inp.env.signOk
    · by_cases hput : inp.env.putOk
      · have hD := handlerDecorate_of_ok cache inp doc workingRef pages t hnd hl hsig hput
        by_cases htx : inp.env.txOk
        · left
          have hfind2 := find?_append_fresh t.blobs inp.env.freshBlobId
            inp.env.freshBlobRef hfresh
          simp only [handlerTail, hD]
          rw [handlerUpdate_of_ok cache inp doc _ _ _ hud htx hfind2]
          dsimp only
          rw [handlerFinish_eq]
          simp [handlerRendered]
        · right
          simp only [handlerTail, hD]
          rw [handlerUpdate_of_txFail cache inp doc _ _ hud (Bool.not_eq_true _ ▸ htx)]
          simp [handlerRendered]
      · right
        have hD := handlerDecorate_of_putFail cache inp doc workingRef pages t hnd hl hsig
          (Bool.not_eq_true _ ▸ hput)
        simp [handlerTail, hD, handlerRendered]
    · right
      have hD := handlerDecorate_of_signFail cache inp doc workingRef pages t hnd hl
        (Bool.not_eq_true _ ▸ hsig)
      simp [handlerTail, hD, handlerRendered]

/-- Which fields of the state `sealDocument` changes, by outcome (master
specification combining the precondition checks with `sealEffects_spec`). -/
theorem sealDocument_spec (inp : SealInput) (s : DbState) :
    (∃ doc, inp.doc = some doc ∧ (sealDocument inp s).2 = Except.ok () ∧
      (sealDocument inp s).1.docStatus =
        (if isRejectedOf doc then DocumentStatus.REJECTED else DocumentStatus.COMPLETED) ∧
      (sealDocument inp s).1.docCompletedAt = some inp.env.now ∧
      (sealDocument inp s).1.docDataRef = inp.env.freshBlobRef ∧
      (sealDocument inp s).1.auditLog = s.auditLog ++ [sealAuditEntry doc inp.env.txId] ∧
      (sealDocument inp s).1.emails = s.emails ++
        (if inp.sendEmail && !inp.isResealing then [doc.id] else []) ∧
      (sealDocument inp s).1.webhooks = s.webhooks ++ [{
        event := if isRejectedOf doc then WebhookEvent.DOCUMENT_REJECTED
          else WebhookEvent.DOCUMENT_COMPLETED
        documentId := doc.id }]) ∨
    ((∃ e, (sealDocument inp s).2 = Except.error e) ∧
      (sealDocument inp s).1.docStatus = s.docStatus ∧
      (sealDocument inp s).1.docCompletedAt = s.docCompletedAt ∧
      (sealDocument inp s).1.docDataRef = s.docDataRef ∧
      (sealDocument inp s).1.auditLog = s.auditLog ∧
      (sealDocument inp s).1.emails = s.emails ∧
      (sealDocument inp s).1.webhooks = s.webhooks) := by
  cases hdoc : inp.doc with
  | none =>
    right
    simp [sealDocument, hdoc]
  | some doc =>
    cases hdd : doc.documentData with
    | none =>
      right
      simp [sealDocument, hdoc, hdd]
    | some dd =>
      by_cases h1 : (!isRejectedOf doc &&
          ((nonCCRecipients doc).any fun r => r.signingStatus ≠ SigningStatus.SIGNED)) = true
      · right
        have heq : sealDocument inp s = (s, Except.error SealError.notComplete) := by
          simp only [sealDocument, hdoc, hdd]
          rw [h1]
          simp
        rw [heq]
        simp
      · rw [Bool.not_eq_true] at h1
        by_cases h2 : (!isRejectedOf doc && fieldsContainUnsignedRequiredField inp.fields) = true
        · right
          have heq : sealDocument inp s = (s, Except.error SealError.unsignedRequiredFields) := by
            simp only [sealDocument, hdoc, hdd]
            rw [h1, h2]
            simp
          rw [heq]
          simp
        · rw [Bool.not_eq_true] at h2
          rw [sealDocument_eq_effects inp s doc dd hdoc hdd h1 h2]
          rcases sealEffects_spec inp doc dd s with h | h
          · exact Or.inl ⟨doc, rfl, h⟩
          · exact Or.inr h

theorem handlerDecorate_loads (cache : RunCache) (inp : SealInput) (doc : Document)
    (w : String) (t : DbState) :
    (handlerDecorate cache inp doc w t).1.loads = t.loads := by
  cases hc : cache.newDataId with
  | some id => rw [handlerDecorate_of_cached cache inp doc w t id hc]
  | none =>
    cases hl : inp.env.loadPages w with
    | none => rw [handlerDecorate_of_loadFail cache inp doc w t hc hl]
    | some pages =>
      by_cases hsig : inp.env.signOk
      · by_cases hput : inp.env.putOk
        · rw [handlerDecorate_of_ok cache inp doc w pages t hc hl hsig hput]
          simp [handlerRendered]
        · rw [handlerDecorate_of_putFail cache inp doc w pages t hc hl hsig
            (Bool.not_eq_true _ ▸ hput)]
          simp [handlerRendered]
      · rw [handlerDecorate_of_signFail cache inp doc w pages t hc hl
          (Bool.not_eq_true _ ▸ hsig)]
        simp [handlerRendered]

theorem handlerUpdate_loads (cache : RunCache) (inp : SealInput) (doc : Document)
    (n : String) (t : DbState) :
    (handlerUpdate cache inp doc n t).1.loads = t.loads := by
  by_cases hc : cache.updateDone
  · rw [handlerUpdate_of_cached cache inp doc n t hc]
  · by_cases ht : inp.env.txOk
    · cases hf : t.blobs.find? fun b => b.1 = n with
      | none =>
        rw [handlerUpdate_of_notFound cache inp doc n t (Bool.not_eq_true _ ▸ hc) ht hf]
      | some b =>
        rw [handlerUpdate_of_ok cache inp doc n t b (Bool.not_eq_true _ ▸ hc) ht hf]
    · rw [handlerUpdate_of_txFail cache inp doc n t (Bool.not_eq_true _ ▸ hc)
        (Bool.not_eq_true _ ▸ ht)]

theorem handlerFinish_loads (cache : RunCache) (inp : SealInput) (doc : Document)
    (t : DbState) : (handlerFinish cache inp doc t).1.loads = t.loads := by
  rw [handlerFinish_eq]

theorem handlerTail_loads (cache : RunCache) (inp : SealInput) (doc : Document)
    (w : String) (t : DbState) :
    (handlerTail cache inp doc w t).1.loads = t.loads := by
  rcases hD : handlerDecorate cache inp doc w t with ⟨s5, rD⟩
  have hDl := handlerDecorate_loads cache inp doc w t
  rw [hD] at hDl
  cases rD with
  | error e => simpa [handlerTail, hD] using hDl
  | ok id =>
    rcases hU : handlerUpdate cache inp doc id
        { s5 with analytics := s5.analytics ++ [doc.id] } with ⟨s7, rU⟩
    have hUl := handlerUpdate_loads cache inp doc id
      { s5 with analytics := s5.analytics ++ [doc.id] }
    rw [hU] at hUl
    cases rU with
    | error e =>
      simp only [handlerTail, hD, hU]
      simp at hUl hDl
      simp [hUl, hDl]
    | ok u =>
      simp only [handlerTail, hD, hU]
      rw [handlerFinish_loads cache inp doc s7]
      simp at hUl hDl
      rw [hUl, hDl]

/-- Master specification of the job handler (first run of the
`decorate-and-sign-pdf` and `update-document` tasks, fresh blob id):
on success the status/timestamp/data-reference/audit-log quadruple plus
the email and webhook logs take their final values together; on any
failure none of them changes. -/
theorem runHandler_spec (cache : RunCache) (inp : SealInput) (s : DbState)
    (hud : cache.updateDone = false) (hnd : cache.newDataId = none)
    (hfresh : ∀ b ∈ s.blobs, b.1 ≠ inp.env.freshBlobId) :
    (∃ doc, inp.doc = some doc ∧ (runHandler cache inp s).2 = Except.ok () ∧
      (runHandler cache inp s).1.docStatus =
        (if isRejectedOf doc then DocumentStatus.REJECTED else DocumentStatus.COMPLETED) ∧
      (runHandler cache inp s).1.docCompletedAt = some inp.env.now ∧
      (runHandler cache inp s).1.docDataRef = inp.env.freshBlobRef ∧
      (runHandler cache inp s).1.auditLog = s.auditLog ++ [sealAuditEntry doc inp.env.txId] ∧
      (runHandler cache inp s).1.emails = s.emails ++
        (if !cache.emailDone && handlerShouldSendEmail inp doc then [doc.id] else []) ∧
      (runHandler cache inp s).1.webhooks = s.webhooks ++ [{
        event := if isRejectedOf doc then WebhookEvent.DOCUMENT_REJECTED
          else WebhookEvent.DOCUMENT_COMPLETED
        documentId := doc.id }]) ∨
    ((∃ e, (runHandler cache inp s).2 = Except.error e) ∧
      (runHandler cache inp s).1.docStatus = s.docStatus ∧
      (runHandler cache inp s).1.docCompletedAt = s.docCompletedAt ∧
      (runHandler cache inp s).1.docDataRef = s.docDataRef ∧
      (runHandler cache inp s).1.auditLog = s.auditLog ∧
      (runHandler cache inp s).1.emails = s.emails ∧
      (runHandler cache inp s).1.webhooks = s.webhooks) := by
  cases hdoc : inp.doc with
  | none =>
    right
    simp [runHandler, hdoc]
  | some doc =>
    by_cases hcomp : ((doc.recipients.any fun r => r.signingStatus = SigningStatus.REJECTED) ||
        (doc.recipients.all fun r => r.signingStatus = SigningStatus.SIGNED)) = true
    · cases hfind : inp.env.findDocumentData (cache.dataId.getD doc.documentDataId) with
      | none =>
        right
        rw [runHandler_of_noData cache inp s doc hdoc hcomp hfind]
        simp
      | some dd =>
        by_cases hflds : (!isRejectedOf doc &&
            fieldsContainUnsignedRequiredField inp.fields) = true
        · right
          rw [runHandler_of_unsigned cache inp s doc dd hdoc hcomp hfind hflds]
          simp
        · rw [Bool.not_eq_true] at hflds
          rw [runHandler_of_main cache inp s doc dd hdoc hcomp hfind hflds]
          have hS2 :
              ({ (if doc.qrToken.isNone then
                    { s with docQrToken := some inp.env.freshQrToken } else s) with
                  loads := (if doc.qrToken.isNone then
                      { s with docQrToken := some inp.env.freshQrToken } else s).loads ++
                    [if inp.isResealing then dd.initialData else dd.data] } : DbState).blobs
                  = s.blobs ∧
              ({ (if doc.qrToken.isNone then
                    { s with docQrToken := some inp.env.freshQrToken } else s) with
                  loads := (if doc.qrToken.isNone then
                      { s with docQrToken := some inp.env.freshQrToken } else s).loads ++
                    [if inp.isResealing then dd.initialData else dd.data] } : DbState).docStatus
                  = s.docStatus ∧
              ({ (if doc.qrToken.isNone then
                    { s with docQrToken := some inp.env.freshQrToken } else s) with
                  loads := (if doc.qrToken.isNone then
                      { s with docQrToken := some inp.env.freshQrToken } else s).loads ++
                    [if inp.isResealing then dd.initialData else dd.data] } : DbState).docCompletedAt
                  = s.docCompletedAt ∧
              ({ (if doc.qrToken.isNone then
                    { s with docQrToken := some inp.env.freshQrToken } else s) with
                  loads := (if doc.qrToken.isNone then
                      { s with docQrToken := some inp.env.freshQrToken } else s).loads ++
                    [if inp.isResealing then dd.initialData else dd.data] } : DbState).docDataRef
                  = s.docDataRef ∧
              ({ (if doc.qrToken.isNone then
                    { s with docQrToken := some inp.env.freshQrToken } else s) with
                  loads := (if doc.qrToken.isNone then
                      { s with docQrToken := some inp.env.freshQrToken } else s).loads ++
                    [if inp.isResealing then dd.initialData else dd.data] } : DbState).auditLog
                  = s.auditLog ∧
              ({ (if doc.qrToken.isNone then
                    { s with docQrToken := some inp.env.freshQrToken } else s) with
                  loads := (if doc.qrToken.isNone then
                      { s with docQrToken := some inp.env.freshQrToken } else s).loads ++
                    [if inp.isResealing then dd.initialData else dd.data] } : DbState).emails
                  = s.emails ∧
              ({ (if doc.qrToken.isNone then
                    { s with docQrToken := some inp.env.freshQrToken } else s) with
                  loads := (if doc.qrToken.isNone then
                      { s with docQrToken := some inp.env.freshQrToken } else s).loads ++
                    [if inp.isResealing then dd.initialData else dd.data] } : DbState).webhooks
                  = s.webhooks := by
            by_cases hqr : doc.qrToken.isNone <;> simp [hqr]
          obtain ⟨hb, h1, h2, h3, h4, h5, h6⟩ := hS2
          rcases handlerTail_spec cache inp doc
              (if inp.isResealing then dd.initialData else dd.data) _ hud hnd
              (hb ▸ hfresh) with h | h
          · left
            refine ⟨doc, rfl, h.1, h.2.1, h.2.2.1, h.2.2.2.1, ?_, ?_, ?_⟩
            · rw [h.2.2.2.2.1, h4]
            · rw [h.2.2.2.2.2.1, h5]
            · rw [h.2.2.2.2.2.2.1, h6]
          · right
            refine ⟨h.1, ?_, ?_, ?_, ?_, ?_, ?_⟩
            · rw [h.2.1, h1]
            · rw [h.2.2.1, h2]
            · rw [h.2.2.2.1, h3]
            · rw [h.2.2.2.2.1, h4]
            · rw [h.2.2.2.2.2.1, h5]
            · rw [h.2.2.2.2.2.2.1, h6]
    · rw [Bool.not_eq_true] at hcomp
      right
      rw [runHandler_of_notComplete cache inp s doc hdoc hcomp]
      simp

/-- Whatever the outcome past the precondition checks, the handler reads
exactly the working reference (initial data on a reseal). -/
theorem runHandler_loads (cache : RunCache) (inp : SealInput) (s : DbState)
    (doc : Document) (dd : DocumentData) (hdoc : inp.doc = some doc)
    (hcomp : ((doc.recipients.any fun r => r.signingStatus = SigningStatus.REJECTED) ||
      (doc.recipients.all fun r => r.signingStatus = SigningStatus.SIGNED)) = true)
    (hfind : inp.env.findDocumentData (cache.dataId.getD doc.documentDataId) = some dd)
    (hflds : (!isRejectedOf doc && fieldsContainUnsignedRequiredField inp.fields) = false) :
    (runHandler cache inp s).1.loads =
      s.loads ++ [if inp.isResealing then dd.initialData else dd.data] := by
  rw [runHandler_of_main cache inp s doc dd hdoc hcomp hfind hflds]
  rw [handlerTail_loads]
  by_cases hqr : doc.qrToken.isNone <;> simp [hqr]

theorem sealPersist_ne_unsigned (inp : SealInput) (doc : Document) (s : DbState) :
    (sealPersist inp doc s).2 ≠ Except.error SealError.unsignedRequiredFields := by
  intro h
  rcases sealPersist_result inp doc s with h2 | h2 <;> rw [h] at h2 <;> simp at h2

theorem sealEffects_ne_unsigned (inp : SealInput) (doc : Document)
    (dd : DocumentData) (s : DbState) :
    (sealEffects inp doc dd s).2 ≠ Except.error SealError.unsignedRequiredFields := by
  simp only [sealEffects]
  split
  · simp
  · split
    · simp
    · split
      · simp
      · exact sealPersist_ne_unsigned inp doc _

theorem handlerDecorate_ne_unsigned (cache : RunCache) (inp : SealInput)
    (doc : Document) (workingRef : String) (s : DbState) :
    (handlerDecorate cache inp doc workingRef s).2 ≠
      Except.error SealError.unsignedRequiredFields := by
  simp only [handlerDecorate]
  split
  · simp
  · split
    · simp
    · split
      · simp
      · split
        · simp
        · simp

theorem handlerUpdate_ne_unsigned (cache : RunCache) (inp : SealInput)
    (doc : Document) (newDataId : String) (s : DbState) :
    (handlerUpdate cache inp doc newDataId s).2 ≠
      Except.error SealError.unsignedRequiredFields := by
  simp only [handlerUpdate]
  split
  · simp
  · split
    · simp
    · split
      · simp
      · simp

theorem handlerTail_ne_unsigned (cache : RunCache) (inp : SealInput)
    (doc : Document) (workingRef : String) (t : DbState) :
    (handlerTail cache inp doc workingRef t).2 ≠
      Except.error SealError.unsignedRequiredFields := by
  rcases hD : handlerDecorate cache inp doc workingRef t with ⟨s5, rD⟩
  cases rD with
  | error e =>
    have hne := handlerDecorate_ne_unsigned cache inp doc workingRef t
    rw [hD] at hne
    simpa [handlerTail, hD] using hne
  | ok id =>
    rcases hU : handlerUpdate cache inp doc id
        { s5 with analytics := s5.analytics ++ [doc.id] } with ⟨s7, rU⟩
    cases rU with
    | error e =>
      have hne := handlerUpdate_ne_unsigned cache inp doc id
        { s5 with analytics := s5.analytics ++ [doc.id] }
      rw [hU] at hne
      simpa [handlerTail, hD, hU] using hne
    | ok u =>
      have hf := handlerFinish_ok cache inp doc s7
      simp [handlerTail, hD, hU]
      rw [hf]
      simp

/-! ## Claim C2 -/

/-- The all-collaborators-succeed environment with a failing database
transaction. -/
def cInputTxFail : SealInput := { cInputCC with env := { cEnv with txOk := false } }

/-- C2: persistence is atomic in both entry points.  On any failure the
document status, the `DocumentData.data` reference and the audit log are
exactly what they were before the call; on success the status (REJECTED
when a non-CC recipient rejected, else COMPLETED), the completion
timestamp, the new data reference and exactly one `DOCUMENT_COMPLETED`
audit entry (fresh transaction id, rejection flag/reason when rejected,
cf. `sealAuditEntry`) all take effect together.  For the handler this is
stated for a first run of its `update-document`/`decorate-and-sign-pdf`
tasks with a fresh content-addressed blob id. -/
theorem C2_atomic_persistence :
    (∀ (inp : SealInput) (s : DbState),
      (∀ e, (sealDocument inp s).2 = Except.error e →
        (sealDocument inp s).1.docStatus = s.docStatus ∧
        (sealDocument inp s).1.docDataRef = s.docDataRef ∧
        (sealDocument inp s).1.auditLog = s.auditLog) ∧
      (∀ doc, inp.doc = some doc → (sealDocument inp s).2 = Except.ok () →
        (sealDocument inp s).1.docStatus =
          (if isRejectedOf doc then DocumentStatus.REJECTED else DocumentStatus.COMPLETED) ∧
        (sealDocument inp s).1.docCompletedAt = some inp.env.now ∧
        (sealDocument inp s).1.docDataRef = inp.env.freshBlobRef ∧
        (sealDocument inp s).1.auditLog = s.auditLog ++ [sealAuditEntry doc inp.env.txId])) ∧
    (∀ (cache : RunCache) (inp : SealInput) (s : DbState),
      cache.updateDone = false → cache.newDataId = none →
      (∀ b ∈ s.blobs, b.1 ≠ inp.env.freshBlobId) →
      (∀ e, (runHandler cache inp s).2 = Except.error e →
        (runHandler cache inp s).1.docStatus = s.docStatus ∧
        (runHandler cache inp s).1.docDataRef = s.docDataRef ∧
        (runHandler cache inp s).1.auditLog = s.auditLog) ∧
      (∀ doc, inp.doc = some doc → (runHandler cache inp s).2 = Except.ok () →
        (runHandler cache inp s).1.docStatus =
          (if isRejectedOf doc then DocumentStatus.REJECTED else DocumentStatus.COMPLETED) ∧
        (runHandler cache inp s).1.docCompletedAt = some inp.env.now ∧
        (runHandler cache inp s).1.docDataRef = inp.env.freshBlobRef ∧
        (runHandler cache inp s).1.auditLog = s.auditLog ++ [sealAuditEntry doc inp.env.txId])) := by
  constructor
  · intro inp s
    constructor
    · intro e he
      rcases sealDocument_spec inp s with ⟨d, hd, hok, _⟩ | ⟨_, hst, hca, hdr, hal, _, _⟩
      · rw [hok] at he
        simp at he
      · exact ⟨hst, hdr, hal⟩
    · intro doc hdoc hok
      rcases sealDocument_spec inp s with
        ⟨d, hd, _, hst, hca, hdr, hal, _, _⟩ | ⟨⟨e, he⟩, _⟩
      · have hdd : d = doc := by
          rw [hdoc] at hd
          exact (Option.some.inj hd).symm
        subst hdd
        exact ⟨hst, hca, hdr, hal⟩
      · rw [he] at hok
        simp at hok
  · intro cache inp s hud hnd hfresh
    constructor
    · intro e he
      rcases runHandler_spec cache inp s hud hnd hfresh with
        ⟨d, hd, hok, _⟩ | ⟨_, hst, hca, hdr, hal, _, _⟩
      · rw [hok] at he
        simp at he
      · exact ⟨hst, hdr, hal⟩
    · intro doc hdoc hok
      rcases runHandler_spec cache inp s hud hnd hfresh with
        ⟨d, hd, _, hst, hca, hdr, hal, _, _⟩ | ⟨⟨e, he⟩, _⟩
      · have hdd : d = doc := by
          rw [hdoc] at hd
          exact (Option.some.inj hd).symm
        subst hdd
        exact ⟨hst, hca, hdr, hal⟩
      · rw [he] at hok
        simp at hok

/-- C2 witness: with a failing transaction the seal leaves the
status/data-reference/audit triple untouched; with all collaborators
healthy all of them take their final values together. -/
theorem C2_witness :
    ((sealDocument cInputTxFail cState).1.docStatus = cState.docStatus ∧
      (sealDocument cInputTxFail cState).1.docDataRef = cState.docDataRef ∧
      (sealDocument cInputTxFail cState).1.auditLog = cState.auditLog) ∧
    ((sealDocument cInputCC cState).1.docStatus =
        (if isRejectedOf cDocCC then DocumentStatus.REJECTED else DocumentStatus.COMPLETED) ∧
      (sealDocument cInputCC cState).1.docCompletedAt = some cInputCC.env.now ∧
      (sealDocument cInputCC cState).1.docDataRef = cInputCC.env.freshBlobRef ∧
      (sealDocument cInputCC cState).1.auditLog =
        cState.auditLog ++ [sealAuditEntry cDocCC cInputCC.env.txId]) :=
  ⟨(C2_atomic_persistence.1 cInputTxFail cState).1 SealError.txFailed
      (by with_unfolding_all decide),
    (C2_atomic_persistence.1 cInputCC cState).2 cDocCC (by with_unfolding_all decide)
      (by with_unfolding_all decide)⟩

/-! ## Claim C9 -/

/-- C9: past the precondition checks, a resealing invocation reads (and
hence renders onto) exactly the bytes referenced by `initialData`, never
the current `data` reference - in both entry points, whatever the later
outcome. -/
theorem C9_reseal_initial_data :
    (∀ (inp : SealInput) (s : DbState) (doc : Document) (dd : DocumentData),
      inp.doc = some doc → doc.documentData = some dd → inp.isResealing = true →
      (!isRejectedOf doc &&
        ((nonCCRecipients doc).any fun r => r.signingStatus ≠ SigningStatus.SIGNED)) = false →
      (!isRejectedOf doc && fieldsContainUnsignedRequiredField inp.fields) = false →
      (sealDocument inp s).1.loads = s.loads ++ [dd.initialData]) ∧
    (∀ (cache : RunCache) (inp : SealInput) (s : DbState) (doc : Document)
        (dd : DocumentData),
      inp.doc = some doc → inp.isResealing = true →
      ((doc.recipients.any fun r => r.signingStatus = SigningStatus.REJECTED) ||
        (doc.recipients.all fun r => r.signingStatus = SigningStatus.SIGNED)) = true →
      inp.env.findDocumentData (cache.dataId.getD doc.documentDataId) = some dd →
      (!isRejectedOf doc && fieldsContainUnsignedRequiredField inp.fields) = false →
      (runHandler cache inp s).1.loads = s.loads ++ [dd.initialData]) := by
  constructor
  · intro inp s doc dd hdoc hdd hres h1 h2
    rw [sealDocument_eq_effects inp s doc dd hdoc hdd h1 h2, sealEffects_loads, hres]
    simp
  · intro cache inp s doc dd hdoc hres hcomp hfind hflds
    rw [runHandler_loads cache inp s doc dd hdoc hcomp hfind hflds, hres]
    simp

/-- The CC-pending fixture invoked as a reseal. -/
def cInputCCReseal : SealInput := { cInputCC with isResealing := true }

/-- The rejected-document fixture invoked as a reseal. -/
def cInputRejectedReseal : SealInput := { cInputRejected with isResealing := true }

/-- C9 witness: both entry points, invoked as reseals on the concrete
fixtures, read exactly the `initialData` reference and not the current
`data` reference. -/
theorem C9_witness :
    (sealDocument cInputCCReseal cState).1.loads = cState.loads ++ [cDocData.initialData] ∧
      (runHandler {} cInputRejectedReseal cState).1.loads =
        cState.loads ++ [cDocData.initialData] ∧
      cDocData.initialData ≠ cDocData.data :=
  ⟨C9_reseal_initial_data.1 cInputCCReseal cState cDocCC cDocData
      (by with_unfolding_all decide) (by with_unfolding_all decide)
      (by with_unfolding_all decide) (by with_unfolding_all decide)
      (by with_unfolding_all decide),
    C9_reseal_initial_data.2 {} cInputRejectedReseal cState cDocRejected cDocData
      (by with_unfolding_all decide) (by with_unfolding_all decide)
      (by with_unfolding_all decide) (by with_unfolding_all decide)
      (by with_unfolding_all decide),
    by with_unfolding_all decide⟩

/-! ## Claim C10 -/

/-- C10: the value recorded by the `get-document-status` checkpoint never
influences the handler - two executions differing only in that cached
value produce identical states and results, whatever the rest of the
checkpoint cache, the input and the starting state.  (The email decision
reads `document.status` as loaded at the start of the run, embedded in
`handlerShouldSendEmail`.) -/
theorem C10_status_cache_independence :
    ∀ (c1 c2 : Option DocumentStatus) (d : Option Int) (n : Option String)
      (u e : Bool) (inp : SealInput) (s : DbState),
      runHandler (RunCache.mk c1 d n u e) inp s =
        runHandler (RunCache.mk c2 d n u e) inp s := by
  intro c1 c2 d n u e inp s
  rfl

/-! ## Claim C4 -/

/-- C4 (amended): in the job handler the completion email is sent (on a
first run of the email task) exactly when `sendEmail` holds and - on a
non-reseal - the document is not rejected, or - on a reseal - the
document was not already COMPLETED before the run.  `sealDocument`
deviates from the claim: it emails whenever `sendEmail` holds and the
call is not a reseal, with no rejection check and no reseal exception
(see `C4_counterexample`). -/
theorem C4_completion_email :
    (∀ (inp : SealInput) (doc : Document),
      handlerShouldSendEmail inp doc =
        (inp.sendEmail && (if inp.isResealing then !isDocumentCompleted doc.status
          else !isRejectedOf doc))) ∧
    (∀ (cache : RunCache) (inp : SealInput) (s : DbState) (doc : Document),
      cache.updateDone = false → cache.newDataId = none →
      (∀ b ∈ s.blobs, b.1 ≠ inp.env.freshBlobId) →
      inp.doc = some doc → (runHandler cache inp s).2 = Except.ok () →
      (runHandler cache inp s).1.emails = s.emails ++
        (if !cache.emailDone && handlerShouldSendEmail inp doc then [doc.id] else [])) ∧
    (∀ (inp : SealInput) (s : DbState) (doc : Document),
      inp.doc = some doc → (sealDocument inp s).2 = Except.ok () →
      (sealDocument inp s).1.emails = s.emails ++
        (if inp.sendEmail && !inp.isResealing then [doc.id] else [])) := by
  refine ⟨?_, ?_, ?_⟩
  · intro inp doc
    by_cases hr : inp.isResealing <;> by_cases hc : isDocumentCompleted doc.status <;>
      simp [handlerShouldSendEmail, hr, hc]
  · intro cache inp s doc hud hnd hfresh hdoc hok
    rcases runHandler_spec cache inp s hud hnd hfresh with
      ⟨d, hd, _, _, _, _, _, hem, _⟩ | ⟨⟨e, he⟩, _⟩
    · have hdd : d = doc := by
        rw [hdoc] at hd
        exact (Option.some.inj hd).symm
      subst hdd
      exact hem
    · rw [he] at hok
      simp at hok
  · intro inp s doc hdoc hok
    rcases sealDocument_spec inp s with
      ⟨d, hd, _, _, _, _, _, hem, _⟩ | ⟨⟨e, he⟩, _⟩
    · have hdd : d = doc := by
        rw [hdoc] at hd
        exact (Option.some.inj hd).symm
      subst hdd
      exact hem
    · rw [he] at hok
      simp at hok

/-- C4 witness: on the rejected fixture, `sealDocument` (non-reseal,
`sendEmail = true`) appends a completion email, while the handler run
does not. -/
theorem C4_witness :
    (sealDocument cInputRejected cState).1.emails = cState.emails ++
        (if cInputRejected.sendEmail && !cInputRejected.isResealing
          then [cDocRejected.id] else []) ∧
      (runHandler {} cInputRejected cState).1.emails = cState.emails ++
        (if !(({} : RunCache)).emailDone && handlerShouldSendEmail cInputRejected cDocRejected
          then [cDocRejected.id] else []) :=
  ⟨C4_completion_email.2.2 cInputRejected cState cDocRejected
      (by with_unfolding_all decide) (by with_unfolding_all decide),
    C4_completion_email.2.1 {} cInputRejected cState cDocRejected
      (by with_unfolding_all decide) (by with_unfolding_all decide)
      (by with_unfolding_all decide) (by with_unfolding_all decide)
      (by with_unfolding_all decide)⟩

/-- C4 counterexample: the claim as stated says the completion email is
sent only when the document is not rejected.  `sealDocument`
(`seal-document.ts` line 369: `if (sendEmail && !isResealing)`) sends it
for the rejected fixture anyway. -/
theorem C4_counterexample :
    isRejectedOf cDocRejected = true ∧
      cInputRejected.sendEmail = true ∧
      cInputRejected.isResealing = false ∧
      (sealDocument cInputRejected cState).2 = Except.ok () ∧
      (sealDocument cInputRejected cState).1.emails = [cDocRejected.id] := by
  with_unfolding_all decide

/-! ## Claim C8 -/

/-- A required field that was never inserted. -/
def cFieldRequired : Field := { cFieldText with required := true, inserted := false }

/-- The rejected fixture carrying an unsigned required field. -/
def cInputRejectedUnsigned : SealInput := { cInputRejected with fields := [cFieldRequired] }

/-- C8: when some non-CC recipient is REJECTED, both entry points treat
the document as complete and skip the unsigned-required-fields check
(the two precondition errors are unreachable, for every field list), and
a successful seal persists status REJECTED with an audit entry whose
reason is that of the first rejected non-CC recipient in query order,
the empty string standing in when no reason was recorded. -/
theorem C8_rejection_precedence :
    (∀ (doc : Document) (r : Recipient) (txId : String),
      rejectedRecipientOf doc = some r →
      isRejectedOf doc = true ∧
        rejectionReasonOf doc = r.rejectionReason.getD "" ∧
        sealAuditEntry doc txId =
          { type := AuditLogType.DOCUMENT_COMPLETED
            documentId := doc.id
            transactionId := txId
            isRejected := true
            rejectionReason := some (r.rejectionReason.getD "") }) ∧
    (∀ (inp : SealInput) (s : DbState) (doc : Document) (dd : DocumentData) (r : Recipient),
      inp.doc = some doc → doc.documentData = some dd →
      rejectedRecipientOf doc = some r →
      (sealDocument inp s).2 ≠ Except.error SealError.notComplete ∧
        (sealDocument inp s).2 ≠ Except.error SealError.unsignedRequiredFields ∧
        ((sealDocument inp s).2 = Except.ok () →
          (sealDocument inp s).1.docStatus = DocumentStatus.REJECTED ∧
          (sealDocument inp s).1.auditLog = s.auditLog ++ [sealAuditEntry doc inp.env.txId])) ∧
    (∀ (cache : RunCache) (inp : SealInput) (s : DbState) (doc : Document) (r : Recipient),
      inp.doc = some doc → rejectedRecipientOf doc = some r →
      (runHandler cache inp s).2 ≠ Except.error SealError.notComplete ∧
        (runHandler cache inp s).2 ≠ Except.error SealError.unsignedRequiredFields) ∧
    (∀ (cache : RunCache) (inp : SealInput) (s : DbState) (doc : Document) (r : Recipient),
      cache.updateDone = false → cache.newDataId = none →
      (∀ b ∈ s.blobs, b.1 ≠ inp.env.freshBlobId) →
      inp.doc = some doc → rejectedRecipientOf doc = some r →
      (runHandler cache inp s).2 = Except.ok () →
      (runHandler cache inp s).1.docStatus = DocumentStatus.REJECTED ∧
        (runHandler cache inp s).1.auditLog =
          s.auditLog ++ [sealAuditEntry doc inp.env.txId]) := by
  refine ⟨?_, ?_, ?_, ?_⟩
  · intro doc r txId hrej
    refine ⟨by simp [isRejectedOf, hrej], by simp [rejectionReasonOf, hrej], ?_⟩
    simp [sealAuditEntry, isRejectedOf, rejectionReasonOf, hrej]
  · intro inp s doc dd r hdoc hdd hrej
    have hrejT : isRejectedOf doc = true := by simp [isRejectedOf, hrej]
    have h1 : (!isRejectedOf doc &&
        ((nonCCRecipients doc).any fun r => r.signingStatus ≠ SigningStatus.SIGNED)) = false := by
      rw [hrejT]
      rfl
    have h2 : (!isRejectedOf doc && fieldsContainUnsignedRequiredField inp.fields) = false := by
      rw [hrejT]
      rfl
    rw [sealDocument_eq_effects inp s doc dd hdoc hdd h1 h2]
    refine ⟨sealEffects_ne_notComplete inp doc dd s, sealEffects_ne_unsigned inp doc dd s, ?_⟩
    intro hok
    rcases sealEffects_spec inp doc dd s with ⟨_, hst, _, _, hal, _, _⟩ | ⟨⟨e, he⟩, _⟩
    · refine ⟨?_, hal⟩
      rw [hst, hrejT]
      simp
    · rw [he] at hok
      simp at hok
  · intro cache inp s doc r hdoc hrej
    have hrejT : isRejectedOf doc = true := by simp [isRejectedOf, hrej]
    have hrmem : r ∈ nonCCRecipients doc := List.mem_of_find?_eq_some hrej
    have hrstat := List.find?_some hrej
    have hcomp : ((doc.recipients.any fun r => r.signingStatus = SigningStatus.REJECTED) ||
        (doc.recipients.all fun r => r.signingStatus = SigningStatus.SIGNED)) = true := by
      apply Bool.or_eq_true_iff.mpr
      left
      apply List.any_eq_true.mpr
      exact ⟨r, List.mem_of_mem_filter hrmem, hrstat⟩
    cases hfind : inp.env.findDocumentData (cache.dataId.getD doc.documentDataId) with
    | none =>
      rw [runHandler_of_noData cache inp s doc hdoc hcomp hfind]
      constructor <;> simp
    | some dd =>
      have hflds : (!isRejectedOf doc && fieldsContainUnsignedRequiredField inp.fields)
          = false := by
        rw [hrejT]
        rfl
      rw [runHandler_of_main cache inp s doc dd hdoc hcomp hfind hflds]
      exact ⟨handlerTail_ne_notComplete cache inp doc _ _,
        handlerTail_ne_unsigned cache inp doc _ _⟩
  · intro cache inp s doc r hud hnd hfresh hdoc hrej hok
    rcases runHandler_spec cache inp s hud hnd hfresh with
      ⟨d, hd, _, hst, _, _, hal, _, _⟩ | ⟨⟨e, he⟩, _⟩
    · have hdd : d = doc := by
        rw [hdoc] at hd
        exact (Option.some.inj hd).symm
      subst hdd
      refine ⟨?_, hal⟩
      rw [hst]
      simp [isRejectedOf, hrej]
    · rw [he] at hok
      simp at hok

/-- C8 witness: on the rejected fixture carrying an unsigned required
field, the seal still succeeds as REJECTED, with the first rejected
reason of the first rejected recipient in the audit entry. -/
theorem C8_witness :
    fieldsContainUnsignedRequiredField cInputRejectedUnsigned.fields = true ∧
      (sealDocument cInputRejectedUnsigned cState).2 ≠ Except.error SealError.notComplete ∧
      (sealDocument cInputRejectedUnsigned cState).2 ≠
        Except.error SealError.unsignedRequiredFields ∧
      sealAuditEntry cDocRejected "tx1" =
        { type := AuditLogType.DOCUMENT_COMPLETED
          documentId := 1
          transactionId := "tx1"
          isRejected := true
          rejectionReason := some "bad terms" } :=
  ⟨by with_unfolding_all decide,
    (C8_rejection_precedence.2.1 cInputRejectedUnsigned cState cDocRejected cDocData
      cRecipientRejected (by with_unfolding_all decide) (by with_unfolding_all decide)
      (by with_unfolding_all decide)).1,
    (C8_rejection_precedence.2.1 cInputRejectedUnsigned cState cDocRejected cDocData
      cRecipientRejected (by with_unfolding_all decide) (by with_unfolding_all decide)
      (by with_unfolding_all decide)).2.1,
    by
      have h := (C8_rejection_precedence.1 cDocRejected cRecipientRejected "tx1"
        (by with_unfolding_all decide)).2.2
      rw [h]
      with_unfolding_all decide⟩

end Documenso
